import Mathlib

/-! # bridgeGo connector: a shallow embedding of `connector/connector.go`

The connector keeps one MQTT session to a market-data broker, subscribes and
unsubscribes batches of topics in eleven feed categories and routes inbound
messages to per-category callbacks.

Conventions of the embedding.

* Go strings are lists of characters (`Str`); a string constant of the source
  is written as the same literal followed by `.toList`.
* The connector object (`Connect`) is passed and returned explicitly.  The
  package keeps one object (`GetInstance`), so the receiver `c` of the methods
  and the global `instance` read by the two handlers are the same value.
* A callback is opaque user code.  A registered callback is an identifier and
  calling it is recorded as an `Invocation`; `nil` is `none`.
* Calls into libraries that talk to the outside world or parse text
  (`encoding/json`, `encoding/base64`, `net/http`, `time`, the paho MQTT
  client) are the fields of `Env`; every call made on the MQTT client is
  recorded as a `BrokerCall`.
* `json.Marshal` of the response structs cannot fail, so an operation returns
  the response value itself; `none` stands for the empty string `""`.
* A Go run-time panic (index out of range, failed type assertion) is the
  outcome `panicked`.
-/

namespace Connector

/-- Go `string`. -/
abbrev Str := List Char

/-! ## Topic prefixes (connector.go, lines 20-32) -/

def mw : Str := "prod/marketfeed/mw/v1/".toList
def index : Str := "prod/marketfeed/index/v1/".toList
def oi : Str := "prod/marketfeed/oi/v1/".toList
def marketStatus : Str := "prod/marketfeed/marketStatus/v1/".toList
def lpp : Str := "prod/marketfeed/lpp/v1/".toList
def high52Week : Str := "prod/marketfeed/high52week/v1/".toList
def low52Week : Str := "prod/marketfeed/low52week/v1/".toList
def upperCircuit : Str := "prod/marketfeed/uppercircuit/v1/".toList
def lowerCircuit : Str := "prod/marketfeed/lowercircuit/v1/".toList
def order : Str := "prod/updates/order/v1/".toList
def trade : Str := "prod/updates/trade/v1/".toList

/-- The eleven feed categories, in the order of the prefix constants. -/
inductive FeedCategory where
  | marketWatch
  | indexFeed
  | openInterest
  | marketStatusFeed
  | lastPriceProtection
  | high52
  | low52
  | upperCircuitFeed
  | lowerCircuitFeed
  | orderUpdates
  | tradeUpdates
  deriving DecidableEq, Repr

/-- The wire prefix each public `SubscribeX` / `UnsubscribeX` wrapper passes as `feedType`. -/
def FeedCategory.feedType : FeedCategory → Str
  | .marketWatch => mw
  | .indexFeed => index
  | .openInterest => oi
  | .marketStatusFeed => marketStatus
  | .lastPriceProtection => lpp
  | .high52 => high52Week
  | .low52 => low52Week
  | .upperCircuitFeed => upperCircuit
  | .lowerCircuitFeed => lowerCircuit
  | .orderUpdates => order
  | .tradeUpdates => trade

/-! ## `regexp` calls of the source -/

/-- The literal the pattern `"(v1/)"` matches. -/
def v1Sep : Str := "v1/".toList

/-- Scanner behind `reSplit`: `skip` counts the characters of the current match
that are still to be consumed, `cur` is the piece being collected (reversed). -/
def splitGo : Nat → Str → Str → List Str
  | _, [], cur => [cur.reverse]
  | k + 1, _ :: rest, cur => splitGo k rest cur
  | 0, c :: rest, cur =>
    if v1Sep.isPrefixOf (c :: rest) then cur.reverse :: splitGo 2 rest []
    else splitGo 0 rest (c :: cur)

/-- Go `regexp.MustCompile("(v1/)").Split(s, -1)`: the pieces of `s` between the
leftmost non-overlapping occurrences of `v1/`.  The pattern matches only the
three-character literal, so every piece (also an empty one, also the last) is
kept and the empty string gives one empty piece. -/
def reSplit (s : Str) : List Str := splitGo 0 s []

/-- One character of the class `[A-Za-z0-9\/]`. -/
def topicChar (c : Char) : Bool :=
  ('A' ≤ c && c ≤ 'Z') || ('a' ≤ c && c ≤ 'z') || ('0' ≤ c && c ≤ '9') || c == '/'

/-- Go `regexp.MatchString("^[A-Za-z0-9\/]+$", value)`; the pattern compiles, so the
error result is always nil.  Without the `m` flag `$` matches only at the end of
the text. -/
def matchTopic (value : Str) : Bool :=
  !value.isEmpty && value.all topicChar

/-- Go `strings.Split(s, ".")`. -/
def stringsSplitDot (s : Str) : List Str := s.splitOn '.'

/-- Go `len(s)` of a string: its length in bytes (UTF-8). -/
def byteLen (s : Str) : Nat := (s.map Char.utf8Size).sum

/-! ## Data model (models.go and the `Connect` struct) -/

/-- Go `error`, identified by the text `Error()` returns. -/
abbrev GoError := Str

/-- Go `[]byte` message payload. -/
abbrev Payload := List UInt8

/-- A registered callback: opaque user code, known by an identifier. -/
abbrev Callback := Nat

structure connectRequest where
  Host : Str
  Port : Int
  Password : Str
  deriving DecidableEq, Repr

structure connectResponse where
  Message : Str
  Status : Int
  deriving DecidableEq, Repr

structure subscriptionResult where
  ResultCode : Int
  Result : Str
  Topic : Str
  deriving DecidableEq, Repr

structure subscribeResponse where
  Status : Int
  Message : Str
  SubscriptionResult : List subscriptionResult
  deriving DecidableEq, Repr

structure unsubscribeResponse where
  Status : Int
  Message : Str
  deriving DecidableEq, Repr

structure disconnectResponse where
  Status : Int
  Message : Str
  deriving DecidableEq, Repr

/-- The options `ConnectHost` puts into `mqtt.NewClientOptions()`. -/
structure ClientOptions where
  broker : Str
  clientID : Str
  keepAlive : Nat
  username : Str
  password : Str
  insecureSkipVerify : Bool
  protocolVersion : Nat
  autoReconnect : Bool
  deriving DecidableEq, Repr

/-- The session handle `mqtt.Client`: the options it was created with and what
`IsConnected()` reports. -/
structure Client where
  opts : ClientOptions
  connected : Bool
  deriving DecidableEq, Repr

/-- The `Connect` struct: the session handle and the twelve callbacks. -/
structure Connect where
  client : Option Client
  OnDisconnect : Option Callback
  MWHandler : Option Callback
  IndexHandler : Option Callback
  OpenInterstHandler : Option Callback
  MarketStatusHandler : Option Callback
  LppHandler : Option Callback
  High52WeekHandler : Option Callback
  Low52WeekHandler : Option Callback
  UpperCircuitHandler : Option Callback
  LowerCircuitHandler : Option Callback
  OrderUpdatesHandler : Option Callback
  TradeUpdatesHandler : Option Callback
  deriving DecidableEq, Repr

/-- The handler field that belongs to a feed category. -/
def Connect.handler (c : Connect) : FeedCategory → Option Callback
  | .marketWatch => c.MWHandler
  | .indexFeed => c.IndexHandler
  | .openInterest => c.OpenInterstHandler
  | .marketStatusFeed => c.MarketStatusHandler
  | .lastPriceProtection => c.LppHandler
  | .high52 => c.High52WeekHandler
  | .low52 => c.Low52WeekHandler
  | .upperCircuitFeed => c.UpperCircuitHandler
  | .lowerCircuitFeed => c.LowerCircuitHandler
  | .orderUpdates => c.OrderUpdatesHandler
  | .tradeUpdates => c.TradeUpdatesHandler

/-- A decoded JSON value as far as the source inspects it (`interface{}`): a
string, an object, or anything else (nil, bool, number, array). -/
inductive JVal where
  | str (s : Str)
  | obj (fields : List (Str × JVal))
  | other

/-- Go `map[string]byte`, kept as an association list with distinct keys. -/
abbrev ByteMap := List (Str × Nat)

/-- Go `m[k] = v`. -/
def ByteMap.set (m : ByteMap) (k : Str) (v : Nat) : ByteMap :=
  if m.any (fun p => p.1 == k) then m.map (fun p => if p.1 = k then (k, v) else p)
  else m ++ [(k, v)]

/-- The keys of a map. -/
def ByteMap.keys (m : ByteMap) : List Str := m.map Prod.fst

/-- One call made on the MQTT client. -/
inductive BrokerCall where
  | connect (opts : ClientOptions)
  | subscribeMultiple (filter : ByteMap)
  | unsubscribe (topics : List Str)
  | disconnect (quiesce : Nat)
  deriving DecidableEq, Repr

/-- The libraries and remote parties the connector calls. -/
structure Env where
  /-- `json.Unmarshal` into a `connectRequest`. -/
  unmarshalConnect : Str → Except GoError connectRequest
  /-- `json.Unmarshal` into a `subscribeRequest`: the value of `SubscriptionList`
  afterwards (`none` is a nil slice) and the error returned. -/
  unmarshalSubscribe : Str → Option (List Str) × Option GoError
  /-- `json.Unmarshal` into an `unsubscribeRequest`, likewise. -/
  unmarshalUnsubscribe : Str → Option (List Str) × Option GoError
  /-- `json.Unmarshal` into a `map[string]interface{}` (a nil map has no fields). -/
  unmarshalMap : Str → Except GoError (List (Str × JVal))
  /-- `base64.URLEncoding.DecodeString`. -/
  base64Decode : Str → Except GoError Str
  /-- `http.Post` of the object with `userId` and `token` to `validateTokenUrl`,
  then `io.ReadAll` of the response body. -/
  httpPost : Str → Str → Except GoError Str
  /-- `time.Now().Format("020106150405")`. -/
  formattedTime : Str
  /-- The table `pack.ConnackReturnCodes` (the zero value for a missing key). -/
  connackReturnCodes : Nat → Str
  /-- `client.Connect()` followed by `token.Wait()`: the CONNACK return code and
  `token.Error()`. -/
  brokerConnect : ClientOptions → Nat × Option GoError
  /-- `client.SubscribeMultiple(filter, messagehandler)` followed by
  `token.Wait()`: `token.Error()`, or the map `Result()` in the order `range`
  visits it (topic, SUBACK return code as a byte). -/
  brokerSubscribe : ByteMap → Except GoError ByteMap
  /-- `client.Unsubscribe(filter...)` followed by `token.Wait()`: `token.Error()`. -/
  brokerUnsubscribe : List Str → Option GoError
  /-- What `IsConnected()` reports after `Disconnect(250)`. -/
  connectedAfterDisconnect : Client → Bool

/-- How a call of one of the public operations ends: it returns the pair
(response JSON, error), or it panics. `body = none` is the empty string. -/
inductive Outcome (β : Type) where
  | returned (body : Option β) (err : Option GoError)
  | panicked
  deriving DecidableEq, Repr

/-- A finished call: the connector afterwards, the calls made on the MQTT
client, and the outcome. -/
structure Run (β : Type) where
  conn : Connect
  calls : List BrokerCall
  out : Outcome β
  deriving DecidableEq, Repr

/-! ## Identity resolver and session authenticator -/

/-- The fallback identity. -/
def bridgeGo : Str := "bridgeGo".toList

/-- `getUserName` (connector.go, lines 1060-1088). -/
def getUserName (env : Env) (tokenString : Str) : Str :=
  let parts := stringsSplitDot tokenString
  if parts.length ≠ 3 then bridgeGo
  else
    match parts[1]? with
    | none => bridgeGo
    | some payload =>
      let padding := (4 - byteLen payload % 4) % 4
      let payload := payload ++ List.replicate padding '='
      match env.base64Decode payload with
      | .error _ => bridgeGo
      | .ok decodedpayload =>
        match env.unmarshalMap decodedpayload with
        | .error _ => bridgeGo
        | .ok payloadMap =>
          match payloadMap.lookup "preferred_username".toList with
          | some (.str claimValue) => claimValue
          | _ => bridgeGo

/-- What `validateToken` does: it returns `(status, message, err)` or panics on
a failed type assertion. -/
inductive TokenCheck where
  | result (status : Int) (message : Str) (err : Option GoError)
  | panicked
  deriving DecidableEq, Repr

/-- `validateToken` (connector.go, lines 1097-1133). -/
def validateToken (env : Env) (userName token : Str) : TokenCheck :=
  match env.httpPost userName token with
  | .error err => .result (-1) [] (some err)
  | .ok body =>
    match env.unmarshalMap body with
    | .error er => .result (-1) [] (some er)
    | .ok responseMap =>
      match responseMap.lookup "result".toList with
      | some (.obj result) =>
        match result.lookup "status".toList with
        | some (.str status) =>
          if status ≠ "Success".toList then
            match result.lookup "message".toList with
            | some (.str message) => .result (-1) message none
            | _ => .panicked
          else .result 0 "Success".toList none
        | _ => .panicked
      | _ => .panicked

/-! ## Connection manager -/

/-- Go `strconv.Itoa`. -/
def itoa (n : Int) : Str := (toString n).toList

/-- The client options `ConnectHost` builds (lines 242-252). -/
def buildOptions (env : Env) (request : connectRequest) (userName : Str) : ClientOptions :=
  { broker := "ssl://".toList ++ request.Host ++ ":".toList ++ itoa request.Port
    clientID := userName ++ "_go_".toList ++ env.formattedTime
    keepAlive := 20
    username := userName
    password := "OPENID~~".toList ++ request.Password ++ "~".toList
    insecureSkipVerify := true
    protocolVersion := 4
    autoReconnect := false }

/-- Go `mqtt.NewClient(opts)`: a handle that is not yet connected. -/
def NewClient (opts : ClientOptions) : Client := { opts := opts, connected := false }

/-- `Connect.ConnectHost` (connector.go, lines 178-287). -/
def ConnectHost (env : Env) (c : Connect) (connectReq : Str) : Run connectResponse :=
  if connectReq = [] then
    ⟨c, [], .returned (some ⟨"Connection Request should not be empty".toList, 101⟩) none⟩
  else
    match env.unmarshalConnect connectReq with
    | .error err => ⟨c, [], .returned none (some err)⟩
    | .ok request =>
      if request.Host = [] then
        ⟨c, [], .returned (some ⟨"Parameter 'host' should not be empty".toList, 101⟩) none⟩
      else if request.Port = 0 then
        ⟨c, [], .returned (some ⟨"Parameter 'port' should not be empty".toList, 101⟩) none⟩
      else if request.Password = [] then
        -- `if err == nil { return "", err }` after a `json.Marshal` that succeeds
        ⟨c, [], .returned none none⟩
      else
        let userName := getUserName env request.Password
        match validateToken env userName request.Password with
        | .panicked => ⟨c, [], .panicked⟩
        | .result _ _ (some err) => ⟨c, [], .returned none (some err)⟩
        | .result status res none =>
          if status ≠ 0 then ⟨c, [], .returned (some ⟨res, 1⟩) none⟩
          else
            let opts := buildOptions env request userName
            let client := match c.client with
              | none => NewClient opts
              | some existing => existing
            let c1 := { c with client := some client }
            if client.connected then
              ⟨c1, [], .returned (some ⟨"Client is already connected".toList, 105⟩) none⟩
            else
              match env.brokerConnect client.opts with
              | (returnCode, some err) =>
                ⟨c1, [.connect client.opts],
                  .returned (some ⟨env.connackReturnCodes (returnCode % 256), returnCode % 256⟩)
                    (some err)⟩
              | (returnCode, none) =>
                ⟨{ c with client := some { client with connected := true } },
                  [.connect client.opts],
                  .returned (some ⟨env.connackReturnCodes (returnCode % 256), returnCode % 256⟩)
                    none⟩

/-- `Connect.DisconnectHost` (connector.go, lines 1017-1047). -/
def DisconnectHost (env : Env) (c : Connect) : Run disconnectResponse :=
  match c.client with
  | some cl =>
    if cl.connected then
      let response : disconnectResponse :=
        if env.connectedAfterDisconnect cl then ⟨1, "Disconnection Failed".toList⟩
        else ⟨0, "Disconnected Successfully".toList⟩
      ⟨{ c with client := none }, [.disconnect 250], .returned (some response) none⟩
    else ⟨c, [], .returned (some ⟨106, "Client not connected".toList⟩) none⟩
  | none => ⟨c, [], .returned (some ⟨106, "Client not connected".toList⟩) none⟩

/-- `Connect.IsConnected` (connector.go, lines 1053-1058). -/
def Connect.IsConnected (c : Connect) : Bool :=
  match c.client with
  | some cl => cl.connected
  | none => false

/-! ## Subscription manager -/

/-- The table `subackReturnCodes` (lines 59-64); a missing key gives the zero
value `""`. -/
def subackReturnCodes (code : Nat) : Str :=
  if code = 0x00 then "Success".toList
  else if code = 0x01 then "Success".toList
  else if code = 0x02 then "Success".toList
  else if code = 0x80 then "Failure".toList
  else []

/-- The result entry appended for a topic that fails the charset check (line 657). -/
def invalidTopic (value : Str) : subscriptionResult :=
  { ResultCode := 104, Result := "Invalid Topic".toList, Topic := value }

/-- The validation loop of `subscribe` (lines 647-659): `filter` is the map being
filled, `results` is `response.SubscriptionResult`. -/
def subscribeLoop (feedType : Str) :
    List Str → ByteMap → List subscriptionResult → ByteMap × List subscriptionResult
  | [], filter, results => (filter, results)
  | value :: rest, filter, results =>
    if matchTopic value then subscribeLoop feedType rest (filter.set (feedType ++ value) 0) results
    else subscribeLoop feedType rest filter (results ++ [invalidTopic value])

/-- The result entry line 674 builds for an acknowledgment with return code
`value` (a byte) whose key has `bare` as second piece. -/
def ackEntry (value : Nat) (bare : Str) : subscriptionResult :=
  { ResultCode := ((value % 256 : Nat) : Int), Result := subackReturnCodes (value % 256),
    Topic := bare }

/-- The loop over `subscribeToken.Result()` (lines 673-675); `none` is the panic
of `re.Split(key, -1)[1]` on a key without `v1/`. -/
def ackLoop : ByteMap → List subscriptionResult → Option (List subscriptionResult)
  | [], results => some results
  | (key, value) :: rest, results =>
    match (reSplit key)[1]? with
    | none => none
    | some bare => ackLoop rest (results ++ [ackEntry value bare])

/-- The guard `c.client == nil || c.client.IsConnected() == false`. -/
def clientDown (c : Connect) : Bool :=
  match c.client with
  | none => true
  | some client => client.connected == false

/-- `Connect.subscribe` (connector.go, lines 608-693). -/
def subscribe (env : Env) (c : Connect) (subscribeReq : Str) (feedType : Str) :
    Run subscribeResponse :=
  if clientDown c then
    ⟨c, [], .returned (some ⟨106, "Client not connected".toList, []⟩) none⟩
  else if subscribeReq = [] then
    ⟨c, [], .returned (some ⟨101, "Subscription Request should not be empty".toList, []⟩) none⟩
  else
    -- the error of `json.Unmarshal` is assigned to `err` and never read
    match (env.unmarshalSubscribe subscribeReq).1 with
    | none =>
      ⟨c, [], .returned (some ⟨102,
        "TopicList cannot be nil and no. of topics should be less than 1024".toList, []⟩) none⟩
    | some SubscriptionList =>
      if SubscriptionList.length > 1024 then
        ⟨c, [], .returned (some ⟨102,
          "TopicList cannot be nil and no. of topics should be less than 1024".toList, []⟩) none⟩
      else
        let (filter, results) := subscribeLoop feedType SubscriptionList [] []
        if filter.length ≠ 0 then
          match env.brokerSubscribe filter with
          | .error e =>
            ⟨c, [.subscribeMultiple filter], .returned (some ⟨-1, e, results⟩) (some e)⟩
          | .ok result =>
            match ackLoop result results with
            | none => ⟨c, [.subscribeMultiple filter], .panicked⟩
            | some results =>
              ⟨c, [.subscribeMultiple filter],
                .returned (some ⟨0, "Success".toList, results⟩) none⟩
        else
          ⟨c, [], .returned (some ⟨103, "Subscription Failed".toList, results⟩) none⟩

/-- The validation loop of `unsubscribe` (lines 965-974). -/
def unsubscribeLoop (feedType : Str) : List Str → List Str → List Str
  | [], filter => filter
  | value :: rest, filter =>
    if matchTopic value then unsubscribeLoop feedType rest (filter ++ [feedType ++ value])
    else unsubscribeLoop feedType rest filter

/-- `Connect.unsubscribe` (connector.go, lines 937-1005). -/
def unsubscribe (env : Env) (c : Connect) (unsubscribeReq : Str) (feedType : Str) :
    Run unsubscribeResponse :=
  if clientDown c then
    ⟨c, [], .returned (some ⟨106, "Client not connected".toList⟩) none⟩
  else
    -- the error of `json.Unmarshal` is assigned to `err` and never read
    match (env.unmarshalUnsubscribe unsubscribeReq).1 with
    | none =>
      ⟨c, [], .returned (some ⟨102,
        "TopicList cannot be nil and no. of topics should be less than 1024".toList⟩) none⟩
    | some UnSubscriptionList =>
      if UnSubscriptionList.length > 1024 then
        ⟨c, [], .returned (some ⟨102,
          "TopicList cannot be nil and no. of topics should be less than 1024".toList⟩) none⟩
      else
        let filter := unsubscribeLoop feedType UnSubscriptionList []
        if filter.length ≠ 0 then
          match env.brokerUnsubscribe filter with
          | some e => ⟨c, [.unsubscribe filter], .returned (some ⟨-1, e⟩) (some e)⟩
          | none =>
            ⟨c, [.unsubscribe filter],
              .returned (some ⟨0, "Unsubscribed Successfully".toList⟩) none⟩
        else
          ⟨c, [], .returned (some ⟨103, "Unsubscription Failed".toList⟩) none⟩

/-! The public wrappers (lines 314-606 and 709-935): each passes its prefix. -/

def SubscribeFeed (env : Env) (c : Connect) (req : Str) := subscribe env c req mw
def SubscribeIndex (env : Env) (c : Connect) (req : Str) := subscribe env c req index
def SubscribeOpenInterest (env : Env) (c : Connect) (req : Str) := subscribe env c req oi
def SubscribeMarketStatus (env : Env) (c : Connect) (req : Str) := subscribe env c req marketStatus
def SubscribeLpp (env : Env) (c : Connect) (req : Str) := subscribe env c req lpp
def SubscribeHigh52Week (env : Env) (c : Connect) (req : Str) := subscribe env c req high52Week
def SubscribeLow52Week (env : Env) (c : Connect) (req : Str) := subscribe env c req low52Week
def SubscribeUpperCircuit (env : Env) (c : Connect) (req : Str) := subscribe env c req upperCircuit
def SubscribeLowerCircuit (env : Env) (c : Connect) (req : Str) := subscribe env c req lowerCircuit
def SubscribeOrderUpdates (env : Env) (c : Connect) (req : Str) := subscribe env c req order
def SubscribeTradeUpdates (env : Env) (c : Connect) (req : Str) := subscribe env c req trade

def UnsubscribeFeed (env : Env) (c : Connect) (req : Str) := unsubscribe env c req mw
def UnsubscribeIndex (env : Env) (c : Connect) (req : Str) := unsubscribe env c req index
def UnsubscribeOpenInterest (env : Env) (c : Connect) (req : Str) := unsubscribe env c req oi
def UnsubscribeMarketStatus (env : Env) (c : Connect) (req : Str) :=
  unsubscribe env c req marketStatus
def UnsubscribeLpp (env : Env) (c : Connect) (req : Str) := unsubscribe env c req lpp
def UnsubscribeHigh52Week (env : Env) (c : Connect) (req : Str) := unsubscribe env c req high52Week
def UnsubscribeLow52Week (env : Env) (c : Connect) (req : Str) := unsubscribe env c req low52Week
def UnsubscribeUpperCircuit (env : Env) (c : Connect) (req : Str) :=
  unsubscribe env c req upperCircuit
def UnsubscribeLowerCircuit (env : Env) (c : Connect) (req : Str) :=
  unsubscribe env c req lowerCircuit
def UnsubscribeOrderUpdates (env : Env) (c : Connect) (req : Str) := unsubscribe env c req order
def UnsubscribeTradeUpdates (env : Env) (c : Connect) (req : Str) := unsubscribe env c req trade

/-- The public subscribe entry point of a category. -/
def Subscribe (env : Env) (c : Connect) (cat : FeedCategory) (req : Str) : Run subscribeResponse :=
  match cat with
  | .marketWatch => SubscribeFeed env c req
  | .indexFeed => SubscribeIndex env c req
  | .openInterest => SubscribeOpenInterest env c req
  | .marketStatusFeed => SubscribeMarketStatus env c req
  | .lastPriceProtection => SubscribeLpp env c req
  | .high52 => SubscribeHigh52Week env c req
  | .low52 => SubscribeLow52Week env c req
  | .upperCircuitFeed => SubscribeUpperCircuit env c req
  | .lowerCircuitFeed => SubscribeLowerCircuit env c req
  | .orderUpdates => SubscribeOrderUpdates env c req
  | .tradeUpdates => SubscribeTradeUpdates env c req

/-- The public unsubscribe entry point of a category. -/
def Unsubscribe (env : Env) (c : Connect) (cat : FeedCategory) (req : Str) :
    Run unsubscribeResponse :=
  match cat with
  | .marketWatch => UnsubscribeFeed env c req
  | .indexFeed => UnsubscribeIndex env c req
  | .openInterest => UnsubscribeOpenInterest env c req
  | .marketStatusFeed => UnsubscribeMarketStatus env c req
  | .lastPriceProtection => UnsubscribeLpp env c req
  | .high52 => UnsubscribeHigh52Week env c req
  | .low52 => UnsubscribeLow52Week env c req
  | .upperCircuitFeed => UnsubscribeUpperCircuit env c req
  | .lowerCircuitFeed => UnsubscribeLowerCircuit env c req
  | .orderUpdates => UnsubscribeOrderUpdates env c req
  | .tradeUpdates => UnsubscribeTradeUpdates env c req

/-! ## Dispatch router and connection-lost handler -/

/-- One call of a message callback: the handler field it was read from, the
callback, and the two arguments. -/
structure Invocation where
  field : FeedCategory
  callback : Callback
  payload : Payload
  topic : Str
  deriving DecidableEq, Repr

/-- How `messagehandler` ends: it returns after the listed callback calls, or
it panics. -/
inductive Handled where
  | completed (invoked : List Invocation)
  | panicked
  deriving DecidableEq, Repr

/-- One `case` body of `messagehandler`: `if h != nil { h(payload, parts[1]) }`. -/
def callHandler (h : Option Callback) (field : FeedCategory) (payload : Payload)
    (parts : List Str) : Handled :=
  match h with
  | none => .completed []
  | some f =>
    match parts[1]? with
    | none => .panicked
    | some bare => .completed [⟨field, f, payload, bare⟩]

/-- `messagehandler` (connector.go, lines 1135-1189); `inst` is the global `instance`. -/
def messagehandler (inst : Connect) (topic : Str) (payload : Payload) : Handled :=
  let parts := reSplit topic
  match parts[0]? with
  | none => .panicked
  | some part0 =>
    let key := part0 ++ "v1/".toList
    if key = mw then callHandler inst.MWHandler .marketWatch payload parts
    else if key = index then callHandler inst.IndexHandler .indexFeed payload parts
    else if key = oi then callHandler inst.OpenInterstHandler .openInterest payload parts
    else if key = marketStatus then
      callHandler inst.MarketStatusHandler .marketStatusFeed payload parts
    else if key = lpp then callHandler inst.LppHandler .lastPriceProtection payload parts
    else if key = high52Week then callHandler inst.High52WeekHandler .high52 payload parts
    else if key = low52Week then callHandler inst.Low52WeekHandler .low52 payload parts
    else if key = upperCircuit then
      callHandler inst.UpperCircuitHandler .upperCircuitFeed payload parts
    else if key = lowerCircuit then
      callHandler inst.LowerCircuitHandler .lowerCircuitFeed payload parts
    else if key = order then callHandler inst.OrderUpdatesHandler .orderUpdates payload parts
    else if key = trade then callHandler inst.TradeUpdatesHandler .tradeUpdates payload parts
    else .completed []

/-- One call of the disconnect callback: the callback, the error passed, and
the connector as it is at the moment of the call. -/
structure LostInvocation where
  callback : Callback
  err : GoError
  conn : Connect
  deriving DecidableEq, Repr

/-- `onDisconnect` (connector.go, lines 1191-1196); `inst` is the global `instance`. -/
def onDisconnect (inst : Connect) (err : GoError) : Connect × List LostInvocation :=
  match inst.OnDisconnect with
  | some f =>
    let inst1 := { inst with client := none }
    (inst1, [⟨f, err, inst1⟩])
  | none => (inst, [])

/-! ## Concrete inputs

Small environments and connector states on which the operations are evaluated. -/

/-- Options of an already opened session. -/
def sampleOptions : ClientOptions :=
  { broker := "ssl://broker.example.com:8883".toList
    clientID := "bridgeGo_go_011126120000".toList
    keepAlive := 20
    username := bridgeGo
    password := "OPENID~~your_password~".toList
    insecureSkipVerify := true
    protocolVersion := 4
    autoReconnect := false }

/-- A connector on which nothing was ever set. -/
def freshConnector : Connect :=
  { client := none, OnDisconnect := none, MWHandler := none, IndexHandler := none,
    OpenInterstHandler := none, MarketStatusHandler := none, LppHandler := none,
    High52WeekHandler := none, Low52WeekHandler := none, UpperCircuitHandler := none,
    LowerCircuitHandler := none, OrderUpdatesHandler := none, TradeUpdatesHandler := none }

/-- A connector with a connected session and a market-watch and an index callback. -/
def liveConnector : Connect :=
  { freshConnector with
    client := some { opts := sampleOptions, connected := true }
    MWHandler := some 1
    IndexHandler := some 2 }

/-- A connector whose session handle exists but reports not connected. -/
def droppedConnector : Connect :=
  { liveConnector with client := some { opts := sampleOptions, connected := false } }

/-- The request bodies the sample environment decodes; every other body is
rejected by `json.Unmarshal` and leaves the list nil. -/
def sampleLists : List (Str × List Str) :=
  [ ("one".toList, ["nseeq/2885".toList]),
    ("versioned".toList, ["nsev1/2885".toList]),
    ("twice".toList, ["a".toList, "a".toList]),
    ("mixed".toList, ["a".toList, "b c".toList]),
    ("bad".toList, ["nse eq".toList, "a:b".toList, []]),
    ("empty".toList, []) ]

/-- An environment whose token verifier accepts and whose broker accepts every
connect, acknowledges every submitted topic with code 0 and unsubscribes
without error. -/
def sampleEnv : Env where
  unmarshalConnect := fun r =>
    if r = "connect".toList then
      .ok { Host := "broker.example.com".toList, Port := 8883, Password := "your_password".toList }
    else .error "invalid character".toList
  unmarshalSubscribe := fun r =>
    match sampleLists.lookup r with
    | some l => (some l, none)
    | none => (none, some "invalid character".toList)
  unmarshalUnsubscribe := fun r =>
    match sampleLists.lookup r with
    | some l => (some l, none)
    | none => (none, some "invalid character".toList)
  unmarshalMap := fun _ =>
    .ok [("result".toList, .obj [("status".toList, .str "Success".toList)])]
  base64Decode := fun _ => .error "illegal base64 data".toList
  httpPost := fun _ _ => .ok "body".toList
  formattedTime := "011126120000".toList
  connackReturnCodes := fun code => if code = 0 then "Connection Accepted".toList else []
  brokerConnect := fun _ => (0, none)
  brokerSubscribe := fun filter => .ok filter
  brokerUnsubscribe := fun _ => none
  connectedAfterDisconnect := fun _ => false

/-- The sample environment with a broker whose batched subscribe fails at
transport level. -/
def failingEnv : Env :=
  { sampleEnv with brokerSubscribe := fun _ => .error "EOF".toList }

/-- The sample environment decoding two large requests: `over` to 1025 topics
and `full` to exactly 1024 topics. -/
def boundaryEnv : Env :=
  { sampleEnv with
    unmarshalSubscribe := fun r =>
      if r = "over".toList then (some (List.replicate 1025 "a".toList), none)
      else if r = "full".toList then (some (List.replicate 1024 "a".toList), none)
      else (none, some "invalid character".toList)
    unmarshalUnsubscribe := fun r =>
      if r = "over".toList then (some (List.replicate 1025 "a".toList), none)
      else if r = "full".toList then (some (List.replicate 1024 "a".toList), none)
      else (none, some "invalid character".toList) }

/-! ## Subscriptions kept by the broker -/

/-- The wire topics a call on the MQTT client names. -/
def BrokerCall.topics : BrokerCall → List Str
  | .subscribeMultiple filter => filter.keys
  | .unsubscribe topics => topics
  | .connect _ => []
  | .disconnect _ => []

/-- The wire topics submitted by a sequence of calls. -/
def submittedTopics (calls : List BrokerCall) : List Str := calls.flatMap BrokerCall.topics

/-- A broker that keeps the set of subscribed wire topics, run over the calls the
connector made: a batched subscribe that does not fail adds the topics of its
filter, an unsubscribe that does not fail removes its topics, a failed call
changes nothing; `env` tells which calls fail. -/
def brokerAfter (env : Env) : List Str → List BrokerCall → List Str
  | subscribed, [] => subscribed
  | subscribed, .subscribeMultiple filter :: rest =>
    match env.brokerSubscribe filter with
    | .ok _ => brokerAfter env (subscribed ++ filter.keys) rest
    | .error _ => brokerAfter env subscribed rest
  | subscribed, .unsubscribe topics :: rest =>
    match env.brokerUnsubscribe topics with
    | none => brokerAfter env (subscribed.filter (fun k => !topics.contains k)) rest
    | some _ => brokerAfter env subscribed rest
  | subscribed, .connect _ :: rest => brokerAfter env subscribed rest
  | subscribed, .disconnect _ :: rest => brokerAfter env subscribed rest

/-- The padding `getUserName` restores before decoding (lines 1068-1070). -/
def restorePadding (payload : Str) : Str :=
  payload ++ List.replicate ((4 - byteLen payload % 4) % 4) '='

/-! ## More concrete inputs -/

/-- The connect requests the retry environment decodes. -/
def sampleConnectRequests : List (Str × connectRequest) :=
  [ ("nohost".toList, ⟨[], 8883, "your_password".toList⟩),
    ("noport".toList, ⟨"broker.example.com".toList, 0, "your_password".toList⟩),
    ("nopassword".toList, ⟨"broker.example.com".toList, 8883, []⟩),
    ("first".toList, ⟨"old.example.com".toList, 8883, "expired".toList⟩),
    ("second".toList, ⟨"new.example.com".toList, 9906, "renewed".toList⟩) ]

/-- The sample environment with more connect requests and a broker that refuses
every session except one opened with the password `OPENID~~renewed~`. -/
def retryEnv : Env :=
  { sampleEnv with
    unmarshalConnect := fun r =>
      match sampleConnectRequests.lookup r with
      | some request => .ok request
      | none => .error "invalid character".toList
    connackReturnCodes := fun code =>
      if code = 0 then "Connection Accepted".toList
      else if code = 5 then "Connection Refused: Not Authorised".toList
      else []
    brokerConnect := fun opts =>
      if opts.password = "OPENID~~renewed~".toList then (0, none)
      else (5, some "not Authorized".toList) }

/-- The sample environment with a working base64 decoder and JSON decoder for
four token payloads: the empty object, a text that is not JSON, an object whose
`preferred_username` is the number 5, and one whose `preferred_username` is the
string `93080048`. -/
def claimsEnv : Env :=
  { sampleEnv with
    base64Decode := fun p =>
      if p = "e30=".toList then .ok "empty object".toList
      else if p = "bm90anNvbg==".toList then .ok "notjson".toList
      else if p = "eyJwcmVmZXJyZWRfdXNlcm5hbWUiOjV9".toList then .ok "numeric claim".toList
      else if p = "eyJwcmVmZXJyZWRfdXNlcm5hbWUiOiI5MzA4MDA0OCJ9".toList then
        .ok "string claim".toList
      else .error "illegal base64 data".toList
    unmarshalMap := fun d =>
      if d = "empty object".toList then .ok []
      else if d = "numeric claim".toList then .ok [("preferred_username".toList, .other)]
      else if d = "string claim".toList then
        .ok [("preferred_username".toList, .str "93080048".toList)]
      else .error "invalid character".toList }

/-- The sample environment with a verification service whose response body is
picked by the token: `accept` and `reject` give a `result` object with a string
`status` and `message`; `nomessage` a `result` with status `Failure` only;
`nostatus` a `result` without `status`; `noresult` the empty object;
`textresult` an object whose `result` is a string. -/
def verifierEnv : Env :=
  { sampleEnv with
    httpPost := fun _ token => .ok token
    unmarshalMap := fun body =>
      if body = "accept".toList then
        .ok [("result".toList, .obj [("status".toList, .str "Success".toList),
          ("message".toList, .str "Token is valid".toList)])]
      else if body = "reject".toList then
        .ok [("result".toList, .obj [("status".toList, .str "Failure".toList),
          ("message".toList, .str "Token expired".toList)])]
      else if body = "nomessage".toList then
        .ok [("result".toList, .obj [("status".toList, .str "Failure".toList)])]
      else if body = "nostatus".toList then
        .ok [("result".toList, .obj [("message".toList, .str "Token expired".toList)])]
      else if body = "noresult".toList then .ok []
      else if body = "textresult".toList then .ok [("result".toList, .str "Success".toList)]
      else .error "invalid character".toList }

/-- A connector with a connected session and a disconnect callback. -/
def watchedConnector : Connect :=
  { liveConnector with OnDisconnect := some 9 }

/-- The sample environment with a broker that acknowledges every submitted
topic with the SUBACK failure code `0x80`. -/
def refusingEnv : Env :=
  { sampleEnv with brokerSubscribe := fun filter => .ok (filter.map (fun p => (p.1, 0x80))) }

/-! ## Splitting on `v1/` -/

theorem splitGo_ne_nil (k : Nat) (s cur : Str) : splitGo k s cur ≠ [] := by
  induction s generalizing k cur with
  | nil => simp [splitGo]
  | cons a s ih =>
    cases k with
    | zero =>
      simp only [splitGo]
      split
      · simp
      · exact ih _ _
    | succ k => simpa [splitGo] using ih k cur

theorem reSplit_cons_exists (s : Str) : ∃ first rest, reSplit s = first :: rest := by
  have h := splitGo_ne_nil 0 s []
  unfold reSplit
  cases hs : splitGo 0 s [] with
  | nil => exact absurd hs h
  | cons a l => exact ⟨a, l, rfl⟩

/-- A wire topic splits into the category stem and the pieces of the bare topic. -/
theorem reSplit_feedType (c : FeedCategory) (t : Str) :
    ∃ stem, stem ++ "v1/".toList = c.feedType ∧ reSplit (c.feedType ++ t) = stem :: reSplit t := by
  cases c
  · exact ⟨"prod/marketfeed/mw/".toList, by decide, by
      simp [reSplit, splitGo, FeedCategory.feedType, mw, v1Sep, List.isPrefixOf]⟩
  · exact ⟨"prod/marketfeed/index/".toList, by decide, by
      simp [reSplit, splitGo, FeedCategory.feedType, index, v1Sep, List.isPrefixOf]⟩
  · exact ⟨"prod/marketfeed/oi/".toList, by decide, by
      simp [reSplit, splitGo, FeedCategory.feedType, oi, v1Sep, List.isPrefixOf]⟩
  · exact ⟨"prod/marketfeed/marketStatus/".toList, by decide, by
      simp [reSplit, splitGo, FeedCategory.feedType, marketStatus, v1Sep, List.isPrefixOf]⟩
  · exact ⟨"prod/marketfeed/lpp/".toList, by decide, by
      simp [reSplit, splitGo, FeedCategory.feedType, lpp, v1Sep, List.isPrefixOf]⟩
  · exact ⟨"prod/marketfeed/high52week/".toList, by decide, by
      simp [reSplit, splitGo, FeedCategory.feedType, high52Week, v1Sep, List.isPrefixOf]⟩
  · exact ⟨"prod/marketfeed/low52week/".toList, by decide, by
      simp [reSplit, splitGo, FeedCategory.feedType, low52Week, v1Sep, List.isPrefixOf]⟩
  · exact ⟨"prod/marketfeed/uppercircuit/".toList, by decide, by
      simp [reSplit, splitGo, FeedCategory.feedType, upperCircuit, v1Sep, List.isPrefixOf]⟩
  · exact ⟨"prod/marketfeed/lowercircuit/".toList, by decide, by
      simp [reSplit, splitGo, FeedCategory.feedType, lowerCircuit, v1Sep, List.isPrefixOf]⟩
  · exact ⟨"prod/updates/order/".toList, by decide, by
      simp [reSplit, splitGo, FeedCategory.feedType, order, v1Sep, List.isPrefixOf]⟩
  · exact ⟨"prod/updates/trade/".toList, by decide, by
      simp [reSplit, splitGo, FeedCategory.feedType, trade, v1Sep, List.isPrefixOf]⟩

/-- A string without `v1/` is a single piece. -/
theorem splitGo_of_not_infix (s cur : Str) (h : ¬ v1Sep <:+: s) :
    splitGo 0 s cur = [cur.reverse ++ s] := by
  induction s generalizing cur with
  | nil => simp [splitGo]
  | cons a s ih =>
    have hpre : v1Sep.isPrefixOf (a :: s) = false := by
      cases hp : v1Sep.isPrefixOf (a :: s) with
      | false => rfl
      | true => exact absurd (List.isPrefixOf_iff_prefix.mp hp).isInfix h
    have hs : ¬ v1Sep <:+: s := fun hi => h (hi.trans (List.suffix_cons a s).isInfix)
    simp [splitGo, hpre, ih _ hs]

theorem reSplit_of_not_infix (s : Str) (h : ¬ v1Sep <:+: s) : reSplit s = [s] := by
  simpa [reSplit] using splitGo_of_not_infix s [] h

/-! ## Dispatch router -/

/-- On a wire topic of category `c` the router runs the `case` of `c`. -/
theorem messagehandler_feedType (inst : Connect) (c : FeedCategory) (t : Str) (b : Payload) :
    ∃ stem, messagehandler inst (c.feedType ++ t) b
      = callHandler (inst.handler c) c b (stem :: reSplit t) := by
  obtain ⟨stem, hstem, hsplit⟩ := reSplit_feedType c t
  refine ⟨stem, ?_⟩
  unfold messagehandler
  simp only [hsplit, List.getElem?_cons_zero, hstem]
  cases c <;> simp +decide [FeedCategory.feedType, Connect.handler]

/-- C1: for every category `c`, bare topic `t`, payload `b` and registry, the
router handling a message on `prefix(c) ++ t` returns normally, every callback
call it makes goes through the handler field of `c`, and when that field holds a
callback `f` it calls `f` exactly once with the payload `b` unchanged (and calls
nothing when the field is nil). -/
theorem dispatch_invokes_only_own_category (inst : Connect) (c : FeedCategory) (t : Str)
    (b : Payload) :
    ∃ invoked, messagehandler inst (c.feedType ++ t) b = .completed invoked ∧
      (∀ i ∈ invoked, i.field = c ∧ inst.handler c = some i.callback ∧ i.payload = b) ∧
      (∀ f, inst.handler c = some f → ∃ bare, invoked = [⟨c, f, b, bare⟩]) ∧
      (inst.handler c = none → invoked = []) := by
  obtain ⟨stem, hm⟩ := messagehandler_feedType inst c t b
  obtain ⟨first, rest, hsplit⟩ := reSplit_cons_exists t
  rw [hm, hsplit]
  cases hreg : inst.handler c with
  | none => exact ⟨[], by simp [callHandler], by simp, by simp, by simp⟩
  | some f =>
    refine ⟨[⟨c, f, b, first⟩], by simp [callHandler], ?_, ?_, by simp⟩
    · intro i hi
      simp only [List.mem_singleton] at hi
      subst hi
      exact ⟨rfl, rfl, rfl⟩
    · intro g hg
      cases hg
      exact ⟨first, rfl⟩

/-- When the bare topic holds no further `v1/`, the callback receives it whole. -/
theorem dispatch_passes_bare_topic (inst : Connect) (c : FeedCategory) (t : Str) (b : Payload)
    (f : Callback) (hreg : inst.handler c = some f) (hno : ¬ v1Sep <:+: t) :
    messagehandler inst (c.feedType ++ t) b = .completed [⟨c, f, b, t⟩] := by
  obtain ⟨stem, hm⟩ := messagehandler_feedType inst c t b
  rw [hm, reSplit_of_not_infix t hno, hreg]
  simp [callHandler]

/-- C2: on the wire topic of the charset-valid bare topic `nsev1/2885` the
market-watch callback is called with `nse`, not with the bare topic. -/
theorem dispatch_truncates_versioned_topic :
    matchTopic "nsev1/2885".toList = true ∧
    messagehandler liveConnector (mw ++ "nsev1/2885".toList) [1, 2, 3]
      = .completed [⟨.marketWatch, 1, [1, 2, 3], "nse".toList⟩] := by
  decide

theorem clientDown_of_no_session (c : Connect)
    (h : c.client = none ∨ ∃ cl, c.client = some cl ∧ cl.connected = false) :
    clientDown c = true := by
  rcases h with h | ⟨cl, h, hc⟩ <;> simp [clientDown, h, *]

theorem clientDown_of_connected (c : Connect) (cl : Client) (h : c.client = some cl)
    (hc : cl.connected = true) : clientDown c = false := by
  simp [clientDown, h, hc]

/-- C3: while no session handle exists, or the handle reports not connected,
Subscribe and Unsubscribe of every category and every request string return
status 106 "Client not connected" with no error and no per-topic results, make
no call on the MQTT client, and leave the connector (so the handle) as it was. -/
theorem subscribe_unsubscribe_not_connected (env : Env) (c : Connect) (cat : FeedCategory)
    (req : Str) (h : c.client = none ∨ ∃ cl, c.client = some cl ∧ cl.connected = false) :
    Subscribe env c cat req
      = ⟨c, [], .returned (some ⟨106, "Client not connected".toList, []⟩) none⟩ ∧
    Unsubscribe env c cat req
      = ⟨c, [], .returned (some ⟨106, "Client not connected".toList⟩) none⟩ := by
  have hd := clientDown_of_no_session c h
  constructor
  · cases cat <;>
      simp [Subscribe, SubscribeFeed, SubscribeIndex, SubscribeOpenInterest, SubscribeMarketStatus,
        SubscribeLpp, SubscribeHigh52Week, SubscribeLow52Week, SubscribeUpperCircuit,
        SubscribeLowerCircuit, SubscribeOrderUpdates, SubscribeTradeUpdates, subscribe, hd]
  · cases cat <;>
      simp [Unsubscribe, UnsubscribeFeed, UnsubscribeIndex, UnsubscribeOpenInterest,
        UnsubscribeMarketStatus, UnsubscribeLpp, UnsubscribeHigh52Week, UnsubscribeLow52Week,
        UnsubscribeUpperCircuit, UnsubscribeLowerCircuit, UnsubscribeOrderUpdates,
        UnsubscribeTradeUpdates, unsubscribe, hd]

theorem subscribe_unsubscribe_not_connected_witness :
    (Subscribe sampleEnv droppedConnector .openInterest "one".toList
      = ⟨droppedConnector, [], .returned (some ⟨106, "Client not connected".toList, []⟩) none⟩ ∧
    Unsubscribe sampleEnv droppedConnector .openInterest "one".toList
      = ⟨droppedConnector, [], .returned (some ⟨106, "Client not connected".toList⟩) none⟩) ∧
    (Subscribe sampleEnv freshConnector .tradeUpdates []
      = ⟨freshConnector, [], .returned (some ⟨106, "Client not connected".toList, []⟩) none⟩ ∧
    Unsubscribe sampleEnv freshConnector .tradeUpdates []
      = ⟨freshConnector, [], .returned (some ⟨106, "Client not connected".toList⟩) none⟩) :=
  ⟨subscribe_unsubscribe_not_connected sampleEnv droppedConnector .openInterest "one".toList
      (Or.inr ⟨⟨sampleOptions, false⟩, rfl, rfl⟩),
    subscribe_unsubscribe_not_connected sampleEnv freshConnector .tradeUpdates []
      (Or.inl rfl)⟩

/-- C4: a Connect request with non-empty host, non-zero port and non-empty
password that the token check accepts, made while a session handle exists and
reports connected, returns status 105 "Client is already connected" with no
error, makes no call on the MQTT client, and leaves the connector with the same
handle. -/
theorem connect_while_connected (env : Env) (c : Connect) (connectReq : Str)
    (request : connectRequest) (cl : Client) (res : Str)
    (hreq : connectReq ≠ [])
    (hparse : env.unmarshalConnect connectReq = .ok request)
    (hhost : request.Host ≠ []) (hport : request.Port ≠ 0) (hpw : request.Password ≠ [])
    (hauth : validateToken env (getUserName env request.Password) request.Password
      = .result 0 res none)
    (hcl : c.client = some cl) (hconn : cl.connected = true) :
    ConnectHost env c connectReq
      = ⟨c, [], .returned (some ⟨"Client is already connected".toList, 105⟩) none⟩ ∧
    (ConnectHost env c connectReq).conn.client = some cl := by
  have hc : { c with client := some cl } = c := by
    cases c
    simp_all
  simp [ConnectHost, hreq, hparse, hhost, hport, hpw, hauth, hcl, hconn, hc]

theorem connect_while_connected_witness :
    ConnectHost sampleEnv liveConnector "connect".toList
      = ⟨liveConnector, [], .returned (some ⟨"Client is already connected".toList, 105⟩) none⟩ ∧
    (ConnectHost sampleEnv liveConnector "connect".toList).conn.client
      = some ⟨sampleOptions, true⟩ :=
  connect_while_connected sampleEnv liveConnector "connect".toList
    ⟨"broker.example.com".toList, 8883, "your_password".toList⟩ ⟨sampleOptions, true⟩
    "Success".toList (by decide) rfl (by decide) (by decide) (by decide) (by decide)
    rfl rfl

/-! ## Maps -/

theorem ByteMap.any_key (m : ByteMap) (k : Str) :
    m.any (fun p => p.1 == k) = true ↔ k ∈ m.keys := by
  simp only [List.any_eq_true, beq_iff_eq, ByteMap.keys, List.mem_map]

theorem ByteMap.keys_set (m : ByteMap) (k : Str) (v : Nat) :
    (m.set k v).keys = if k ∈ m.keys then m.keys else m.keys ++ [k] := by
  unfold ByteMap.set
  by_cases h : k ∈ m.keys
  · rw [if_pos ((ByteMap.any_key m k).mpr h), if_pos h]
    simp only [ByteMap.keys, List.map_map]
    apply List.map_congr_left
    intro p _
    by_cases hp : p.1 = k <;> simp [hp]
  · have h' : ¬ m.any (fun p => p.1 == k) = true := fun ha => h ((ByteMap.any_key m k).mp ha)
    rw [if_neg h', if_neg h]
    simp [ByteMap.keys]

theorem ByteMap.mem_keys_set (m : ByteMap) (k : Str) (v : Nat) (x : Str) :
    x ∈ (m.set k v).keys ↔ x ∈ m.keys ∨ x = k := by
  rw [ByteMap.keys_set]
  split
  · constructor
    · exact Or.inl
    · rintro (h | rfl)
      · exact h
      · assumption
  · simp

theorem ByteMap.nodup_keys_set (m : ByteMap) (k : Str) (v : Nat) (h : m.keys.Nodup) :
    (m.set k v).keys.Nodup := by
  rw [ByteMap.keys_set]
  split
  · exact h
  · rename_i hk
    rw [List.nodup_append]
    exact ⟨h, List.nodup_singleton k, by
      intro a ha hb
      rw [List.mem_singleton] at hb
      exact hk (hb ▸ ha)⟩

/-- The entries the loop appends: one `Invalid Topic` entry per malformed topic,
in request order. -/
theorem subscribeLoop_results (feedType : Str) (L : List Str) (filter : ByteMap)
    (results : List subscriptionResult) :
    (subscribeLoop feedType L filter results).2
      = results ++ (L.filter (fun t => !matchTopic t)).map invalidTopic := by
  induction L generalizing filter results with
  | nil => simp [subscribeLoop]
  | cons t L ih =>
    by_cases ht : matchTopic t = true
    · simp [subscribeLoop, ht, ih]
    · simp [subscribeLoop, ht, ih]

theorem subscribeLoop_mem_keys (feedType : Str) (L : List Str) (filter : ByteMap)
    (results : List subscriptionResult) (k : Str) :
    k ∈ (subscribeLoop feedType L filter results).1.keys
      ↔ k ∈ filter.keys ∨ ∃ t ∈ L, matchTopic t = true ∧ k = feedType ++ t := by
  induction L generalizing filter results with
  | nil => simp [subscribeLoop]
  | cons t L ih =>
    by_cases ht : matchTopic t = true
    · simp only [subscribeLoop, ht, if_true, ih, ByteMap.mem_keys_set, List.mem_cons]
      constructor
      · rintro ((h | rfl) | ⟨u, hu, hm, rfl⟩)
        · exact Or.inl h
        · exact Or.inr ⟨t, Or.inl rfl, ht, rfl⟩
        · exact Or.inr ⟨u, Or.inr hu, hm, rfl⟩
      · rintro (h | ⟨u, (rfl | hu), hm, rfl⟩)
        · exact Or.inl (Or.inl h)
        · exact Or.inl (Or.inr rfl)
        · exact Or.inr ⟨u, hu, hm, rfl⟩
    · have hf : matchTopic t = false := by simpa using ht
      simp only [subscribeLoop, hf, Bool.false_eq_true, if_false, ih, List.mem_cons]
      constructor
      · rintro (h | ⟨u, hu, hm, rfl⟩)
        · exact Or.inl h
        · exact Or.inr ⟨u, Or.inr hu, hm, rfl⟩
      · rintro (h | ⟨u, (rfl | hu), hm, rfl⟩)
        · exact Or.inl h
        · exact absurd hm ht
        · exact Or.inr ⟨u, hu, hm, rfl⟩

theorem subscribeLoop_nodup_keys (feedType : Str) (L : List Str) (filter : ByteMap)
    (results : List subscriptionResult) (h : filter.keys.Nodup) :
    (subscribeLoop feedType L filter results).1.keys.Nodup := by
  induction L generalizing filter results with
  | nil => simpa [subscribeLoop] using h
  | cons t L ih =>
    by_cases ht : matchTopic t = true
    · simp only [subscribeLoop, ht, if_true]
      exact ih _ _ (ByteMap.nodup_keys_set _ _ _ h)
    · have hf : matchTopic t = false := by simpa using ht
      simp only [subscribeLoop, hf, Bool.false_eq_true, if_false]
      exact ih _ _ h

theorem Subscribe_eq (env : Env) (c : Connect) (cat : FeedCategory) (req : Str) :
    Subscribe env c cat req = subscribe env c req cat.feedType := by
  cases cat <;> rfl

theorem Unsubscribe_eq (env : Env) (c : Connect) (cat : FeedCategory) (req : Str) :
    Unsubscribe env c cat req = unsubscribe env c req cat.feedType := by
  cases cat <;> rfl

/-- The filter is empty exactly when no submitted topic passes the charset check. -/
theorem subscribeLoop_filter_length (feedType : Str) (L : List Str)
    (results : List subscriptionResult) :
    (subscribeLoop feedType L [] results).1.length ≠ 0 ↔ L.any matchTopic = true := by
  have hk := subscribeLoop_mem_keys feedType L [] results
  rw [List.any_eq_true]
  constructor
  · intro hne
    cases hF : (subscribeLoop feedType L [] results).1 with
    | nil => simp [hF] at hne
    | cons p F =>
      have : p.1 ∈ (subscribeLoop feedType L [] results).1.keys := by
        simp [hF, ByteMap.keys]
      rcases (hk p.1).mp this with h | ⟨t, ht, hm, _⟩
      · simp [ByteMap.keys] at h
      · exact ⟨t, ht, hm⟩
  · rintro ⟨t, ht, hm⟩ h0
    have : feedType ++ t ∈ (subscribeLoop feedType L [] results).1.keys :=
      (hk _).mpr (Or.inr ⟨t, ht, hm, rfl⟩)
    rw [List.length_eq_zero.mp h0] at this
    simp [ByteMap.keys] at this

/-- On a connected session with a decoded list of at most 1024 topics,
`subscribe` runs the validation loop and then takes one of four exits. -/
theorem subscribe_connected (env : Env) (c : Connect) (req feedType : Str) (cl : Client)
    (L : List Str) (hcl : c.client = some cl) (hconn : cl.connected = true) (hreq : req ≠ [])
    (hdec : (env.unmarshalSubscribe req).1 = some L) (hlen : L.length ≤ 1024) :
    subscribe env c req feedType =
      if (subscribeLoop feedType L [] []).1.length ≠ 0 then
        match env.brokerSubscribe (subscribeLoop feedType L [] []).1 with
        | .error e =>
          ⟨c, [.subscribeMultiple (subscribeLoop feedType L [] []).1],
            .returned (some ⟨-1, e, (subscribeLoop feedType L [] []).2⟩) (some e)⟩
        | .ok result =>
          match ackLoop result (subscribeLoop feedType L [] []).2 with
          | none => ⟨c, [.subscribeMultiple (subscribeLoop feedType L [] []).1], .panicked⟩
          | some results =>
            ⟨c, [.subscribeMultiple (subscribeLoop feedType L [] []).1],
              .returned (some ⟨0, "Success".toList, results⟩) none⟩
      else
        ⟨c, [], .returned (some ⟨103, "Subscription Failed".toList,
          (subscribeLoop feedType L [] []).2⟩) none⟩ := by
  have hd := clientDown_of_connected c cl hcl hconn
  have hl : ¬ L.length > 1024 := not_lt.mpr hlen
  unfold subscribe
  simp only [hd, hreq, hdec, hl, if_false, Bool.false_eq_true]

theorem unsubscribe_connected (env : Env) (c : Connect) (req feedType : Str) (cl : Client)
    (L : List Str) (hcl : c.client = some cl) (hconn : cl.connected = true)
    (hdec : (env.unmarshalUnsubscribe req).1 = some L) (hlen : L.length ≤ 1024) :
    unsubscribe env c req feedType =
      if (unsubscribeLoop feedType L []).length ≠ 0 then
        match env.brokerUnsubscribe (unsubscribeLoop feedType L []) with
        | some e =>
          ⟨c, [.unsubscribe (unsubscribeLoop feedType L [])], .returned (some ⟨-1, e⟩) (some e)⟩
        | none =>
          ⟨c, [.unsubscribe (unsubscribeLoop feedType L [])],
            .returned (some ⟨0, "Unsubscribed Successfully".toList⟩) none⟩
      else ⟨c, [], .returned (some ⟨103, "Unsubscription Failed".toList⟩) none⟩ := by
  have hd := clientDown_of_connected c cl hcl hconn
  have hl : ¬ L.length > 1024 := not_lt.mpr hlen
  unfold unsubscribe
  simp only [hd, hdec, hl, if_false, Bool.false_eq_true]

/-- The topics `unsubscribe` collects: the wire topic of every valid entry, in
request order. -/
theorem unsubscribeLoop_eq (feedType : Str) (L : List Str) (filter : List Str) :
    unsubscribeLoop feedType L filter
      = filter ++ (L.filter matchTopic).map (fun t => feedType ++ t) := by
  induction L generalizing filter with
  | nil => simp [unsubscribeLoop]
  | cons t L ih =>
    by_cases ht : matchTopic t = true
    · simp [unsubscribeLoop, ht, ih]
    · simp [unsubscribeLoop, ht, ih]

/-- The acknowledgment loop ends normally when every key has a second piece,
and then appends one entry per acknowledgment, in iteration order. -/
theorem ackLoop_of_split (acks : ByteMap) (results : List subscriptionResult)
    (h : ∀ k ∈ acks.keys, ∃ bare, (reSplit k)[1]? = some bare) :
    ∃ entries, ackLoop acks results = some (results ++ entries) ∧
      List.Forall₂ (fun p r => ∃ bare, (reSplit p.1)[1]? = some bare ∧ r = ackEntry p.2 bare)
        acks entries := by
  induction acks generalizing results with
  | nil => exact ⟨[], by simp [ackLoop], List.Forall₂.nil⟩
  | cons p acks ih =>
    obtain ⟨key, value⟩ := p
    obtain ⟨bare, hb⟩ := h key (by simp [ByteMap.keys])
    obtain ⟨entries, he, hrel⟩ := ih (results ++ [ackEntry value bare]) (fun k hk =>
      h k (by
        simp only [ByteMap.keys, List.map_cons, List.mem_cons]
        exact Or.inr hk))
    refine ⟨ackEntry value bare :: entries, ?_, List.Forall₂.cons ⟨bare, hb, rfl⟩ hrel⟩
    simp [ackLoop, hb, he]

/-- A key of the submitted filter is a wire topic, so it has a second piece. -/
theorem filter_key_splits (cat : FeedCategory) (L : List Str) (results : List subscriptionResult)
    (k : Str) (hk : k ∈ (subscribeLoop cat.feedType L [] results).1.keys) :
    ∃ bare, (reSplit k)[1]? = some bare := by
  rcases (subscribeLoop_mem_keys cat.feedType L [] results k).mp hk with h | ⟨t, _, _, rfl⟩
  · simp [ByteMap.keys] at h
  · obtain ⟨stem, _, hs⟩ := reSplit_feedType cat t
    obtain ⟨first, rest, hr⟩ := reSplit_cons_exists t
    exact ⟨first, by simp [hs, hr]⟩

/-! ## Subscription manager: local rejections -/

/-- A colon, a space and the empty string all fail the charset check; the sample
topic passes it. -/
theorem matchTopic_samples :
    matchTopic "a:b".toList = false ∧ matchTopic "nse eq".toList = false ∧
    matchTopic [] = false ∧ matchTopic "nseeq/2885".toList = true := by
  decide

/-! ## Subscription manager: the size limit -/

/-- C6: on a connected session with a non-empty request string, Subscribe
answers with status 102 exactly when the decoded topic list is nil or has more
than 1024 entries, and the 102 response then has no error, no per-topic results
and is produced without a call on the MQTT client; the same holds for
Unsubscribe. -/
theorem topic_list_limit (env : Env) (c : Connect) (cat : FeedCategory) (req : Str) (cl : Client)
    (hcl : c.client = some cl) (hconn : cl.connected = true) (hreq : req ≠ []) :
    ((∃ body err, (Subscribe env c cat req).out = .returned (some body) err ∧ body.Status = 102)
      ↔ ((env.unmarshalSubscribe req).1 = none ∨
          ∃ L, (env.unmarshalSubscribe req).1 = some L ∧ 1024 < L.length)) ∧
    (((env.unmarshalSubscribe req).1 = none ∨
        ∃ L, (env.unmarshalSubscribe req).1 = some L ∧ 1024 < L.length) →
      Subscribe env c cat req = ⟨c, [], .returned (some ⟨102,
        "TopicList cannot be nil and no. of topics should be less than 1024".toList, []⟩) none⟩) ∧
    ((∃ body err, (Unsubscribe env c cat req).out = .returned (some body) err ∧ body.Status = 102)
      ↔ ((env.unmarshalUnsubscribe req).1 = none ∨
          ∃ L, (env.unmarshalUnsubscribe req).1 = some L ∧ 1024 < L.length)) ∧
    (((env.unmarshalUnsubscribe req).1 = none ∨
        ∃ L, (env.unmarshalUnsubscribe req).1 = some L ∧ 1024 < L.length) →
      Unsubscribe env c cat req = ⟨c, [], .returned (some ⟨102,
        "TopicList cannot be nil and no. of topics should be less than 1024".toList⟩) none⟩) := by
  have hd := clientDown_of_connected c cl hcl hconn
  have hsub : ((env.unmarshalSubscribe req).1 = none ∨
        ∃ L, (env.unmarshalSubscribe req).1 = some L ∧ 1024 < L.length) →
      Subscribe env c cat req = ⟨c, [], .returned (some ⟨102,
        "TopicList cannot be nil and no. of topics should be less than 1024".toList, []⟩) none⟩ := by
    rintro (h | ⟨L, h, hL⟩)
    · rw [Subscribe_eq]
      unfold subscribe
      simp only [hd, hreq, h, if_false, Bool.false_eq_true]
    · rw [Subscribe_eq]
      unfold subscribe
      simp only [hd, hreq, h, if_false, Bool.false_eq_true, gt_iff_lt, hL, if_true]
  have hun : ((env.unmarshalUnsubscribe req).1 = none ∨
        ∃ L, (env.unmarshalUnsubscribe req).1 = some L ∧ 1024 < L.length) →
      Unsubscribe env c cat req = ⟨c, [], .returned (some ⟨102,
        "TopicList cannot be nil and no. of topics should be less than 1024".toList⟩) none⟩ := by
    rintro (h | ⟨L, h, hL⟩)
    · rw [Unsubscribe_eq]
      unfold unsubscribe
      simp only [hd, h, if_false, Bool.false_eq_true]
    · rw [Unsubscribe_eq]
      unfold unsubscribe
      simp only [hd, h, if_false, Bool.false_eq_true, gt_iff_lt, hL, if_true]
  refine ⟨⟨?_, fun h => ⟨_, none, by rw [hsub h], rfl⟩⟩, hsub,
    ⟨?_, fun h => ⟨_, none, by rw [hun h], rfl⟩⟩, hun⟩
  · rintro ⟨body, err, hout, hst⟩
    cases hdec : (env.unmarshalSubscribe req).1 with
    | none => exact Or.inl rfl
    | some L =>
      by_cases hL : 1024 < L.length
      · exact Or.inr ⟨L, rfl, hL⟩
      · exfalso
        rw [Subscribe_eq, subscribe_connected env c req cat.feedType cl L hcl hconn hreq hdec
          (not_lt.mp hL)] at hout
        split_ifs at hout
        · split at hout
          · cases hout
            cases hst
          · split at hout
            · cases hout
            · cases hout
              cases hst
        · cases hout
          cases hst
  · rintro ⟨body, err, hout, hst⟩
    cases hdec : (env.unmarshalUnsubscribe req).1 with
    | none => exact Or.inl rfl
    | some L =>
      by_cases hL : 1024 < L.length
      · exact Or.inr ⟨L, rfl, hL⟩
      · exfalso
        rw [Unsubscribe_eq, unsubscribe_connected env c req cat.feedType cl L hcl hconn hdec
          (not_lt.mp hL)] at hout
        split_ifs at hout
        · split at hout
          · cases hout
            cases hst
          · cases hout
            cases hst
        · cases hout
          cases hst

theorem topic_list_limit_witness :
    Subscribe boundaryEnv liveConnector .marketWatch "over".toList
      = ⟨liveConnector, [], .returned (some ⟨102,
          "TopicList cannot be nil and no. of topics should be less than 1024".toList, []⟩) none⟩ ∧
    (¬ ∃ body err, (Subscribe boundaryEnv liveConnector .marketWatch "full".toList).out
        = .returned (some body) err ∧ body.Status = 102) ∧
    Unsubscribe boundaryEnv liveConnector .marketWatch "over".toList
      = ⟨liveConnector, [], .returned (some ⟨102,
          "TopicList cannot be nil and no. of topics should be less than 1024".toList⟩) none⟩ ∧
    (¬ ∃ body err, (Unsubscribe boundaryEnv liveConnector .marketWatch "full".toList).out
        = .returned (some body) err ∧ body.Status = 102) := by
  have hover := topic_list_limit boundaryEnv liveConnector .marketWatch "over".toList
    ⟨sampleOptions, true⟩ rfl rfl (by decide)
  have hfull := topic_list_limit boundaryEnv liveConnector .marketWatch "full".toList
    ⟨sampleOptions, true⟩ rfl rfl (by decide)
  have hdecS : (boundaryEnv.unmarshalSubscribe "full".toList).1
      = some (List.replicate 1024 "a".toList) := rfl
  have hdecU : (boundaryEnv.unmarshalUnsubscribe "full".toList).1
      = some (List.replicate 1024 "a".toList) := rfl
  refine ⟨hover.2.1 (Or.inr ⟨List.replicate 1025 "a".toList, rfl, by
      rw [List.length_replicate]; omega⟩), ?_,
    hover.2.2.2 (Or.inr ⟨List.replicate 1025 "a".toList, rfl, by
      rw [List.length_replicate]; omega⟩), ?_⟩
  · intro h
    rcases hfull.1.mp h with h0 | ⟨L, hL, hlen⟩
    · rw [hdecS] at h0
      cases h0
    · rw [hdecS] at hL
      cases hL
      rw [List.length_replicate] at hlen
      omega
  · intro h
    rcases hfull.2.2.1.mp h with h0 | ⟨L, hL, hlen⟩
    · rw [hdecU] at h0
      cases h0
    · rw [hdecU] at hL
      cases hL
      rw [List.length_replicate] at hlen
      omega

/-! ## Subscription manager: nothing valid to submit -/

/-- With at least one valid topic the only call on the MQTT client is the
batched subscribe with the filter built by the loop, however the broker answers. -/
theorem subscribe_calls_of_valid (env : Env) (c : Connect) (req feedType : Str) (cl : Client)
    (L : List Str) (hcl : c.client = some cl) (hconn : cl.connected = true) (hreq : req ≠ [])
    (hdec : (env.unmarshalSubscribe req).1 = some L) (hlen : L.length ≤ 1024)
    (hvalid : ∃ t ∈ L, matchTopic t = true) :
    (subscribe env c req feedType).calls
      = [.subscribeMultiple (subscribeLoop feedType L [] []).1] := by
  have hF : (subscribeLoop feedType L [] []).1.length ≠ 0 :=
    (subscribeLoop_filter_length feedType L []).mpr (List.any_eq_true.mpr hvalid)
  rw [subscribe_connected env c req feedType cl L hcl hconn hreq hdec hlen, if_pos hF]
  cases env.brokerSubscribe (subscribeLoop feedType L [] []).1 with
  | error e => rfl
  | ok acks =>
    dsimp only
    cases ackLoop acks (subscribeLoop feedType L [] []).2 with
    | none => rfl
    | some rs => rfl

/-- The second piece of a wire topic whose bare topic holds no `v1/` is the bare topic. -/
theorem wire_topic_second_piece (c : FeedCategory) (t : Str) (hno : ¬ v1Sep <:+: t) :
    (reSplit (c.feedType ++ t))[1]? = some t := by
  obtain ⟨stem, _, hs⟩ := reSplit_feedType c t
  simp [hs, reSplit_of_not_infix t hno]

/-- C8: Subscribe of the charset-valid topic `nsev1/2885` in the market-watch
category, acknowledged by the broker on the wire topic
`prod/marketfeed/mw/v1/nsev1/2885`, reports the result entry with topic `nse`. -/
theorem subscribe_result_topic_truncated :
    matchTopic "nsev1/2885".toList = true ∧
    sampleEnv.brokerSubscribe [(mw ++ "nsev1/2885".toList, 0)]
      = .ok [(mw ++ "nsev1/2885".toList, 0)] ∧
    Subscribe sampleEnv liveConnector .marketWatch "versioned".toList
      = ⟨liveConnector, [.subscribeMultiple [(mw ++ "nsev1/2885".toList, 0)]],
          .returned (some ⟨0, "Success".toList, [⟨0, "Success".toList, "nse".toList⟩]⟩) none⟩ :=
  ⟨by decide, rfl, by decide⟩

/-- The sample topic is echoed whole. -/
theorem subscribe_sample_topic :
    Subscribe sampleEnv liveConnector .marketWatch "one".toList
      = ⟨liveConnector, [.subscribeMultiple [(mw ++ "nseeq/2885".toList, 0)]],
          .returned (some ⟨0, "Success".toList, [⟨0, "Success".toList, "nseeq/2885".toList⟩]⟩)
            none⟩ := by
  decide

theorem length_filter_add (L : List Str) (p : Str → Bool) :
    (L.filter (fun t => !p t)).length + (L.filter p).length = L.length := by
  induction L with
  | nil => rfl
  | cons t L ih =>
    by_cases h : p t = true
    · simp [List.filter_cons, h]
      omega
    · simp [List.filter_cons, h]
      omega

/-- The filter has one key per distinct valid topic. -/
theorem subscribeLoop_filter_card (feedType : Str) (L : List Str) :
    (subscribeLoop feedType L [] []).1.length = (L.filter matchTopic).dedup.length := by
  have hnd : (subscribeLoop feedType L [] []).1.keys.Nodup :=
    subscribeLoop_nodup_keys feedType L [] [] (by simp [ByteMap.keys])
  have hinj : Function.Injective (fun t : Str => feedType ++ t) :=
    fun a b h => List.append_cancel_left h
  have hperm : ((subscribeLoop feedType L [] []).1.keys).Perm
      (((L.filter matchTopic).map (fun t => feedType ++ t)).dedup) := by
    rw [List.perm_ext_iff_of_nodup hnd (List.nodup_dedup _)]
    intro k
    rw [List.mem_dedup, subscribeLoop_mem_keys, List.mem_map]
    constructor
    · rintro (h | ⟨t, ht, hm, rfl⟩)
      · simp [ByteMap.keys] at h
      · exact ⟨t, List.mem_filter.mpr ⟨ht, hm⟩, rfl⟩
    · rintro ⟨t, ht, rfl⟩
      exact Or.inr ⟨t, (List.mem_filter.mp ht).1, (List.mem_filter.mp ht).2, rfl⟩
  have hlen := hperm.length_eq
  rw [List.dedup_map_of_injective hinj, List.length_map] at hlen
  simpa [ByteMap.keys] using hlen

/-- Every element of the left list of a pointwise relation has a partner on the right. -/
theorem exists_right_of_forall₂ {α β : Type} {R : α → β → Prop} {l₁ : List α} {l₂ : List β}
    (h : List.Forall₂ R l₁ l₂) (a : α) (ha : a ∈ l₁) : ∃ b ∈ l₂, R a b := by
  induction h with
  | nil => cases ha
  | cons hab _ ih =>
    rcases List.mem_cons.mp ha with rfl | hin
    · exact ⟨_, List.mem_cons_self _ _, hab⟩
    · obtain ⟨b, hb, hr⟩ := ih hin
      exact ⟨b, List.mem_cons_of_mem _ hb, hr⟩

/-- C9 as stated fails: the request `["a", "a"]` (n = 2, both entries valid) is
submitted as a filter with the single key `prod/marketfeed/mw/v1/a`, the broker
acknowledges exactly that key, and the successful response has one result
entry, not two. -/
theorem subscribe_duplicate_topic_one_entry :
    (sampleEnv.unmarshalSubscribe "twice".toList).1 = some ["a".toList, "a".toList] ∧
    matchTopic "a".toList = true ∧
    sampleEnv.brokerSubscribe [(mw ++ "a".toList, 0)] = .ok [(mw ++ "a".toList, 0)] ∧
    Subscribe sampleEnv liveConnector .marketWatch "twice".toList
      = ⟨liveConnector, [.subscribeMultiple [(mw ++ "a".toList, 0)]],
          .returned (some ⟨0, "Success".toList, [⟨0, "Success".toList, "a".toList⟩]⟩) none⟩ ∧
    [(⟨0, "Success".toList, "a".toList⟩ : subscriptionResult)].length
      ≠ ["a".toList, "a".toList].length :=
  ⟨rfl, by decide, rfl, by decide, by decide⟩

/-- C9, amended: on a connected session, for a request decoded to at most 1024
topics of which at least one is valid, when the broker answers the submitted
filter `F` with an acknowledgment map `acks` having exactly the keys of `F`,
Subscribe returns status 0 with the (104, "Invalid Topic") entries of the
malformed entries, in request order, followed by one entry per acknowledgment.
Every valid entry has its wire topic acknowledged and an entry built from that
acknowledgment; the acknowledgment entries number as many as the distinct valid
topics, so the response has n entries when no valid topic is repeated. -/
theorem subscribe_one_entry_per_distinct_topic (env : Env) (c : Connect) (cat : FeedCategory)
    (req : Str) (cl : Client) (L : List Str)
    (hcl : c.client = some cl) (hconn : cl.connected = true) (hreq : req ≠ [])
    (hdec : (env.unmarshalSubscribe req).1 = some L) (hlen : L.length ≤ 1024)
    (hvalid : ∃ t ∈ L, matchTopic t = true)
    (hok : ∀ F, BrokerCall.subscribeMultiple F ∈ (Subscribe env c cat req).calls →
      ∃ acks, env.brokerSubscribe F = .ok acks ∧ acks.keys.Perm F.keys) :
    ∃ F acks entries,
      env.brokerSubscribe F = .ok acks ∧
      Subscribe env c cat req = ⟨c, [.subscribeMultiple F], .returned (some ⟨0, "Success".toList,
        (L.filter (fun t => !matchTopic t)).map invalidTopic ++ entries⟩) none⟩ ∧
      List.Forall₂ (fun p r => ∃ bare, (reSplit p.1)[1]? = some bare ∧ r = ackEntry p.2 bare)
        acks entries ∧
      (∀ t ∈ L, matchTopic t = true →
        ∃ code bare, (cat.feedType ++ t, code) ∈ acks ∧
          (reSplit (cat.feedType ++ t))[1]? = some bare ∧ ackEntry code bare ∈ entries) ∧
      entries.length = (L.filter matchTopic).dedup.length ∧
      ((L.filter matchTopic).Nodup →
        ((L.filter (fun t => !matchTopic t)).map invalidTopic ++ entries).length = L.length) := by
  have hcalls := subscribe_calls_of_valid env c req cat.feedType cl L hcl hconn hreq hdec hlen
    hvalid
  have hF : (subscribeLoop cat.feedType L [] []).1.length ≠ 0 :=
    (subscribeLoop_filter_length cat.feedType L []).mpr (List.any_eq_true.mpr hvalid)
  obtain ⟨acks, hb, hperm⟩ := hok (subscribeLoop cat.feedType L [] []).1 (by
    rw [Subscribe_eq, hcalls]
    exact List.mem_singleton.mpr rfl)
  obtain ⟨entries, he, hrel⟩ := ackLoop_of_split acks (subscribeLoop cat.feedType L [] []).2
    (fun k hk => filter_key_splits cat L [] k (hperm.subset hk))
  have hcount : entries.length = (L.filter matchTopic).dedup.length := by
    rw [← hrel.length_eq, ← subscribeLoop_filter_card cat.feedType L]
    simpa [ByteMap.keys] using hperm.length_eq
  refine ⟨(subscribeLoop cat.feedType L [] []).1, acks, entries, hb, ?_, hrel, ?_, hcount, ?_⟩
  · rw [Subscribe_eq, subscribe_connected env c req cat.feedType cl L hcl hconn hreq hdec hlen,
      if_pos hF, hb]
    dsimp only
    rw [he, subscribeLoop_results, List.nil_append]
  · intro t ht hm
    have hk : cat.feedType ++ t ∈ acks.keys :=
      hperm.symm.subset ((subscribeLoop_mem_keys _ _ _ _ _).mpr (Or.inr ⟨t, ht, hm, rfl⟩))
    obtain ⟨p, hp, hpk⟩ := List.mem_map.mp hk
    obtain ⟨r, hr, bare, hbare, rfl⟩ := exists_right_of_forall₂ hrel p hp
    refine ⟨p.2, bare, ?_, ?_, hr⟩
    · rw [← hpk]
      exact hp
    · rw [← hpk]
      exact hbare
  · intro hnd
    rw [List.length_append, List.length_map, hcount, hnd.dedup]
    exact length_filter_add L matchTopic

theorem subscribe_one_entry_per_distinct_topic_witness :
    ∃ F acks entries,
      sampleEnv.brokerSubscribe F = .ok acks ∧
      Subscribe sampleEnv liveConnector .marketWatch "mixed".toList
        = ⟨liveConnector, [.subscribeMultiple F], .returned (some ⟨0, "Success".toList,
          (["a".toList, "b c".toList].filter (fun t => !matchTopic t)).map invalidTopic
            ++ entries⟩) none⟩ ∧
      List.Forall₂ (fun p r => ∃ bare, (reSplit p.1)[1]? = some bare ∧ r = ackEntry p.2 bare)
        acks entries ∧
      (∀ t ∈ ["a".toList, "b c".toList], matchTopic t = true →
        ∃ code bare, (FeedCategory.marketWatch.feedType ++ t, code) ∈ acks ∧
          (reSplit (FeedCategory.marketWatch.feedType ++ t))[1]? = some bare ∧
          ackEntry code bare ∈ entries) ∧
      entries.length = (["a".toList, "b c".toList].filter matchTopic).dedup.length ∧
      ((["a".toList, "b c".toList].filter matchTopic).Nodup →
        ((["a".toList, "b c".toList].filter (fun t => !matchTopic t)).map invalidTopic
          ++ entries).length = ["a".toList, "b c".toList].length) :=
  subscribe_one_entry_per_distinct_topic sampleEnv liveConnector .marketWatch "mixed".toList
    ⟨sampleOptions, true⟩ ["a".toList, "b c".toList] rfl rfl (by decide) rfl (by decide)
    ⟨"a".toList, by decide, by decide⟩
    (fun F _ => ⟨F, rfl, List.Perm.refl _⟩)

/-- C10 as stated fails: for the request `["a", "b c"]` with a broker whose
batched subscribe fails with `EOF`, the status -1 response still carries the
(104, "Invalid Topic") entry of the malformed topic `b c`. -/
theorem subscribe_failure_keeps_local_entries :
    (failingEnv.unmarshalSubscribe "mixed".toList).1 = some ["a".toList, "b c".toList] ∧
    matchTopic "a".toList = true ∧
    failingEnv.brokerSubscribe [(mw ++ "a".toList, 0)] = .error "EOF".toList ∧
    Subscribe failingEnv liveConnector .marketWatch "mixed".toList
      = ⟨liveConnector, [.subscribeMultiple [(mw ++ "a".toList, 0)]],
          .returned (some ⟨-1, "EOF".toList, [⟨104, "Invalid Topic".toList, "b c".toList⟩]⟩)
            (some "EOF".toList)⟩ ∧
    [(⟨104, "Invalid Topic".toList, "b c".toList⟩ : subscriptionResult)] ≠ [] :=
  ⟨rfl, by decide, rfl, by decide, by decide⟩

/-- C10, amended: on a connected session, for a request decoded to at most 1024
topics of which at least one is valid, when the broker's batched subscribe
fails at transport level with error `e`, Subscribe returns status -1 with
message `e` together with the error `e`; its per-topic results are exactly the
(104, "Invalid Topic") entries of the malformed topics of the request, in
request order, and no acknowledgment entry. -/
theorem subscribe_transport_failure (env : Env) (c : Connect) (cat : FeedCategory)
    (req : Str) (cl : Client) (L : List Str) (e : GoError)
    (hcl : c.client = some cl) (hconn : cl.connected = true) (hreq : req ≠ [])
    (hdec : (env.unmarshalSubscribe req).1 = some L) (hlen : L.length ≤ 1024)
    (hvalid : ∃ t ∈ L, matchTopic t = true)
    (hfail : ∀ F, BrokerCall.subscribeMultiple F ∈ (Subscribe env c cat req).calls →
      env.brokerSubscribe F = .error e) :
    ∃ F, Subscribe env c cat req = ⟨c, [.subscribeMultiple F], .returned (some ⟨-1, e,
      (L.filter (fun t => !matchTopic t)).map invalidTopic⟩) (some e)⟩ := by
  have hcalls := subscribe_calls_of_valid env c req cat.feedType cl L hcl hconn hreq hdec hlen
    hvalid
  have hF : (subscribeLoop cat.feedType L [] []).1.length ≠ 0 :=
    (subscribeLoop_filter_length cat.feedType L []).mpr (List.any_eq_true.mpr hvalid)
  have hb := hfail (subscribeLoop cat.feedType L [] []).1 (by
    rw [Subscribe_eq, hcalls]
    exact List.mem_singleton.mpr rfl)
  refine ⟨(subscribeLoop cat.feedType L [] []).1, ?_⟩
  rw [Subscribe_eq, subscribe_connected env c req cat.feedType cl L hcl hconn hreq hdec hlen,
    if_pos hF, hb]
  dsimp only
  rw [subscribeLoop_results, List.nil_append]

theorem subscribe_transport_failure_witness :
    ∃ F, Subscribe failingEnv liveConnector .marketWatch "mixed".toList
      = ⟨liveConnector, [.subscribeMultiple F], .returned (some ⟨-1, "EOF".toList,
        (["a".toList, "b c".toList].filter (fun t => !matchTopic t)).map invalidTopic⟩)
          (some "EOF".toList)⟩ :=
  subscribe_transport_failure failingEnv liveConnector .marketWatch "mixed".toList
    ⟨sampleOptions, true⟩ ["a".toList, "b c".toList] "EOF".toList rfl rfl (by decide) rfl
    (by decide) ⟨"a".toList, by decide, by decide⟩ (fun _ _ => rfl)

/-! ## Where the split cuts a bare topic -/

/-- When the text holds `v1/`, the first piece ends where the first `v1/` starts. -/
theorem splitGo_first_piece (s cur : Str) (h : v1Sep <:+: s) :
    ∃ first rest, splitGo 0 s cur = first :: rest ∧ first ++ v1Sep <+: cur.reverse ++ s := by
  induction s generalizing cur with
  | nil =>
    have : v1Sep = [] := List.eq_nil_of_infix_nil h
    exact absurd this (by decide)
  | cons a s ih =>
    cases hp : v1Sep.isPrefixOf (a :: s) with
    | true =>
      refine ⟨cur.reverse, splitGo 2 s [], by simp [splitGo, hp], ?_⟩
      exact (List.prefix_append_right_inj _).mpr (List.isPrefixOf_iff_prefix.mp hp)
    | false =>
      have hs : v1Sep <:+: s := by
        rcases List.infix_cons_iff.mp h with h1 | h2
        · rw [← List.isPrefixOf_iff_prefix, hp] at h1
          cases h1
        · exact h2
      obtain ⟨first, rest, he, hpre⟩ := ih (a :: cur) hs
      refine ⟨first, rest, by simp [splitGo, hp, he], ?_⟩
      simpa using hpre

/-- A bare topic that holds `v1/` is never passed whole: the callback of its
category receives a strictly shorter text, the part before the first `v1/`. -/
theorem dispatch_cuts_topic_at_separator (inst : Connect) (c : FeedCategory) (t : Str)
    (b : Payload) (f : Callback) (hreg : inst.handler c = some f) (hsep : v1Sep <:+: t) :
    ∃ bare, messagehandler inst (c.feedType ++ t) b = .completed [⟨c, f, b, bare⟩] ∧
      bare ++ v1Sep <+: t ∧ bare ≠ t := by
  obtain ⟨stem, hm⟩ := messagehandler_feedType inst c t b
  obtain ⟨first, rest, he, hpre⟩ := splitGo_first_piece t [] hsep
  have hpre' : first ++ v1Sep <+: t := by simpa using hpre
  refine ⟨first, ?_, hpre', ?_⟩
  · rw [hm, hreg]
    simp [callHandler, reSplit, he]
  · intro heq
    have hlen := hpre'.length_le
    rw [heq, List.length_append] at hlen
    have : v1Sep.length = 3 := by decide
    omega

/-- The end-to-end sample: a message on `prod/marketfeed/mw/v1/nseeq/2885`
reaches only the market-watch callback, with the bare topic and the payload. -/
theorem dispatch_sample_message :
    messagehandler liveConnector "prod/marketfeed/mw/v1/nseeq/2885".toList [1, 2, 3]
      = .completed [⟨.marketWatch, 1, [1, 2, 3], "nseeq/2885".toList⟩] := by
  decide

/-! ## Subscribe and Unsubscribe name the same wire topics -/

/-- The calls of `subscribe` on a connected session: one batched subscribe when
some topic is valid, none otherwise; the connector is returned as it was. -/
theorem subscribe_calls_conn (env : Env) (c : Connect) (req feedType : Str) (cl : Client)
    (L : List Str) (hcl : c.client = some cl) (hconn : cl.connected = true) (hreq : req ≠ [])
    (hdec : (env.unmarshalSubscribe req).1 = some L) (hlen : L.length ≤ 1024) :
    (subscribe env c req feedType).calls
      = (if (subscribeLoop feedType L [] []).1.length ≠ 0
          then [.subscribeMultiple (subscribeLoop feedType L [] []).1] else []) ∧
    (subscribe env c req feedType).conn = c := by
  rw [subscribe_connected env c req feedType cl L hcl hconn hreq hdec hlen]
  by_cases hF : (subscribeLoop feedType L [] []).1.length ≠ 0
  · rw [if_pos hF, if_pos hF]
    cases env.brokerSubscribe (subscribeLoop feedType L [] []).1 with
    | error e => exact ⟨rfl, rfl⟩
    | ok acks =>
      dsimp only
      cases ackLoop acks (subscribeLoop feedType L [] []).2 with
      | none => exact ⟨rfl, rfl⟩
      | some rs => exact ⟨rfl, rfl⟩
  · rw [if_neg hF, if_neg hF]
    exact ⟨rfl, rfl⟩

/-- The calls of `unsubscribe` on a connected session: one unsubscribe naming the
wire topic of every valid entry, or none when no entry is valid. -/
theorem unsubscribe_calls (env : Env) (c : Connect) (req feedType : Str) (cl : Client)
    (L : List Str) (hcl : c.client = some cl) (hconn : cl.connected = true)
    (hdec : (env.unmarshalUnsubscribe req).1 = some L) (hlen : L.length ≤ 1024) :
    (unsubscribe env c req feedType).calls
      = (if (L.filter matchTopic).map (fun t => feedType ++ t) ≠ []
          then [.unsubscribe ((L.filter matchTopic).map (fun t => feedType ++ t))] else []) := by
  rw [unsubscribe_connected env c req feedType cl L hcl hconn hdec hlen, unsubscribeLoop_eq,
    List.nil_append]
  by_cases hU : (L.filter matchTopic).map (fun t => feedType ++ t) = []
  · have h0 : ¬ ((L.filter matchTopic).map (fun t => feedType ++ t)).length ≠ 0 := by
      rw [hU]
      simp
    rw [if_neg h0, if_neg (not_not.mpr hU)]
  · have h0 : ((L.filter matchTopic).map (fun t => feedType ++ t)).length ≠ 0 :=
      fun h => hU (List.length_eq_zero.mp h)
    rw [if_pos h0, if_pos hU]
    cases env.brokerUnsubscribe ((L.filter matchTopic).map (fun t => feedType ++ t)) with
    | none => rfl
    | some e => rfl

theorem mem_valid_wire_topics (feedType : Str) (L : List Str) (k : Str) :
    k ∈ (L.filter matchTopic).map (fun t => feedType ++ t)
      ↔ ∃ t ∈ L, matchTopic t = true ∧ k = feedType ++ t := by
  rw [List.mem_map]
  constructor
  · rintro ⟨t, ht, rfl⟩
    exact ⟨t, (List.mem_filter.mp ht).1, (List.mem_filter.mp ht).2, rfl⟩
  · rintro ⟨t, ht, hm, rfl⟩
    exact ⟨t, List.mem_filter.mpr ⟨ht, hm⟩, rfl⟩

theorem mem_filter_keys (feedType : Str) (L : List Str) (k : Str) :
    k ∈ (subscribeLoop feedType L [] []).1.keys
      ↔ ∃ t ∈ L, matchTopic t = true ∧ k = feedType ++ t := by
  rw [subscribeLoop_mem_keys]
  constructor
  · rintro (h | h)
    · simp [ByteMap.keys] at h
    · exact h
  · exact Or.inr

/-- C11: on a connected session, for a request pair decoded to the same list `L`
of at most 1024 topics, the wire topics Subscribe submits and the wire topics
Unsubscribe submits are both exactly the `prefix(c) ++ t` with `t` in `L`
matching `[A-Za-z0-9/]+`. Hence over a broker that keeps the set of subscribed
topics and whose unsubscribe does not fail, Subscribe followed by Unsubscribe
leaves the broker's set as it was, minus those wire topics: none of them stays
subscribed. -/
theorem subscribe_unsubscribe_same_wire_topics (env : Env) (c : Connect) (cat : FeedCategory)
    (reqS reqU : Str) (cl : Client) (L : List Str)
    (hcl : c.client = some cl) (hconn : cl.connected = true) (hreqS : reqS ≠ [])
    (hdecS : (env.unmarshalSubscribe reqS).1 = some L)
    (hdecU : (env.unmarshalUnsubscribe reqU).1 = some L) (hlen : L.length ≤ 1024) :
    (∀ k, k ∈ submittedTopics (Subscribe env c cat reqS).calls
      ↔ ∃ t ∈ L, matchTopic t = true ∧ k = cat.feedType ++ t) ∧
    (∀ k, k ∈ submittedTopics (Unsubscribe env c cat reqU).calls
      ↔ ∃ t ∈ L, matchTopic t = true ∧ k = cat.feedType ++ t) ∧
    ((∀ topics, env.brokerUnsubscribe topics = none) →
      ∀ subscribed k,
        k ∈ brokerAfter env subscribed ((Subscribe env c cat reqS).calls ++
            (Unsubscribe env (Subscribe env c cat reqS).conn cat reqU).calls)
          ↔ k ∈ subscribed ∧ ¬ ∃ t ∈ L, matchTopic t = true ∧ k = cat.feedType ++ t) := by
  obtain ⟨hcS, hconnS⟩ := subscribe_calls_conn env c reqS cat.feedType cl L hcl hconn hreqS
    hdecS hlen
  have hcU := unsubscribe_calls env c reqU cat.feedType cl L hcl hconn hdecU hlen
  have hkeys := mem_filter_keys cat.feedType L
  have hwire := mem_valid_wire_topics cat.feedType L
  rw [Subscribe_eq, hconnS, Unsubscribe_eq, hcS, hcU]
  by_cases hany : ∃ t ∈ L, matchTopic t = true
  · have hF : (subscribeLoop cat.feedType L [] []).1.length ≠ 0 :=
      (subscribeLoop_filter_length cat.feedType L []).mpr (List.any_eq_true.mpr hany)
    have hU : (L.filter matchTopic).map (fun t => cat.feedType ++ t) ≠ [] := by
      obtain ⟨t, ht, hm⟩ := hany
      intro h
      have := (hwire (cat.feedType ++ t)).mpr ⟨t, ht, hm, rfl⟩
      rw [h] at this
      cases this
    rw [if_pos hF, if_pos hU]
    refine ⟨fun k => ?_, fun k => ?_, fun hun subscribed k => ?_⟩
    · simpa [submittedTopics, BrokerCall.topics] using hkeys k
    · simpa [submittedTopics, BrokerCall.topics] using hwire k
    · simp only [List.singleton_append, brokerAfter, hun]
      cases env.brokerSubscribe (subscribeLoop cat.feedType L [] []).1 with
      | error e =>
        simp only [List.mem_filter, Bool.not_eq_true', List.contains_eq_any_beq,
          List.any_eq_false, beq_iff_eq]
        rw [← hwire k]
        constructor
        · rintro ⟨h1, h2⟩
          exact ⟨h1, fun hk => h2 k hk rfl⟩
        · rintro ⟨h1, h2⟩
          exact ⟨h1, fun x hx hxk => h2 (hxk ▸ hx)⟩
      | ok acks =>
        simp only [List.mem_filter, Bool.not_eq_true', List.contains_eq_any_beq,
          List.any_eq_false, beq_iff_eq, List.mem_append]
        rw [← hwire k]
        constructor
        · rintro ⟨h1, h2⟩
          have hk : k ∉ (L.filter matchTopic).map (fun t => cat.feedType ++ t) :=
            fun hk => h2 k hk rfl
          rcases h1 with h1 | h1
          · exact ⟨h1, hk⟩
          · exact absurd ((hwire k).mpr ((hkeys k).mp h1)) hk
        · rintro ⟨h1, h2⟩
          exact ⟨Or.inl h1, fun x hx hxk => h2 (hxk ▸ hx)⟩
  · have hF : ¬ (subscribeLoop cat.feedType L [] []).1.length ≠ 0 := fun h =>
      hany (List.any_eq_true.mp ((subscribeLoop_filter_length cat.feedType L []).mp h))
    have hU : ¬ (L.filter matchTopic).map (fun t => cat.feedType ++ t) ≠ [] := by
      intro h
      obtain ⟨k, hk⟩ := List.exists_mem_of_ne_nil _ h
      obtain ⟨t, ht, hm, _⟩ := (hwire k).mp hk
      exact hany ⟨t, ht, hm⟩
    rw [if_neg hF, if_neg hU]
    refine ⟨fun k => ?_, fun k => ?_, fun _ subscribed k => ?_⟩
    · constructor
      · intro h
        simp [submittedTopics] at h
      · rintro ⟨t, ht, hm, _⟩
        exact absurd ⟨t, ht, hm⟩ hany
    · constructor
      · intro h
        simp [submittedTopics] at h
      · rintro ⟨t, ht, hm, _⟩
        exact absurd ⟨t, ht, hm⟩ hany
    · simp only [List.append_nil, brokerAfter]
      constructor
      · intro h
        exact ⟨h, fun ⟨t, ht, hm, _⟩ => hany ⟨t, ht, hm⟩⟩
      · exact fun h => h.1

theorem subscribe_unsubscribe_same_wire_topics_witness :
    (∀ k, k ∈ submittedTopics (Subscribe sampleEnv liveConnector .marketWatch "one".toList).calls
      ↔ ∃ t ∈ ["nseeq/2885".toList],
          matchTopic t = true ∧ k = FeedCategory.marketWatch.feedType ++ t) ∧
    (∀ k, k ∈ submittedTopics (Unsubscribe sampleEnv liveConnector .marketWatch "one".toList).calls
      ↔ ∃ t ∈ ["nseeq/2885".toList],
          matchTopic t = true ∧ k = FeedCategory.marketWatch.feedType ++ t) ∧
    ((∀ topics, sampleEnv.brokerUnsubscribe topics = none) →
      ∀ subscribed k,
        k ∈ brokerAfter sampleEnv subscribed
            ((Subscribe sampleEnv liveConnector .marketWatch "one".toList).calls ++
              (Unsubscribe sampleEnv
                (Subscribe sampleEnv liveConnector .marketWatch "one".toList).conn
                .marketWatch "one".toList).calls)
          ↔ k ∈ subscribed ∧ ¬ ∃ t ∈ ["nseeq/2885".toList],
              matchTopic t = true ∧ k = FeedCategory.marketWatch.feedType ++ t) :=
  subscribe_unsubscribe_same_wire_topics sampleEnv liveConnector .marketWatch "one".toList
    "one".toList ⟨sampleOptions, true⟩ ["nseeq/2885".toList] rfl rfl (by decide) rfl rfl
    (by decide)

/-- The sample round trip: after Subscribe and Unsubscribe of `nseeq/2885` the
broker no longer holds its wire topic, and another subscription is untouched. -/
theorem round_trip_sample :
    brokerAfter sampleEnv [index ++ "nifty".toList]
        ((Subscribe sampleEnv liveConnector .marketWatch "one".toList).calls ++
          (Unsubscribe sampleEnv liveConnector .marketWatch "one".toList).calls)
      = [index ++ "nifty".toList] ∧
    brokerAfter sampleEnv [index ++ "nifty".toList]
        (Subscribe sampleEnv liveConnector .marketWatch "one".toList).calls
      = [index ++ "nifty".toList, mw ++ "nseeq/2885".toList] := by
  decide

/-! ## Connection manager: request validation -/

/-- A parsed request with an empty host is answered with status 101 and the
message naming `host`, before the token check and with no call on the client. -/
theorem connect_missing_host (env : Env) (c : Connect) (connectReq : Str)
    (request : connectRequest) (hreq : connectReq ≠ [])
    (hparse : env.unmarshalConnect connectReq = .ok request) (hhost : request.Host = []) :
    ConnectHost env c connectReq
      = ⟨c, [], .returned (some ⟨"Parameter 'host' should not be empty".toList, 101⟩) none⟩ := by
  simp [ConnectHost, hreq, hparse, hhost]

/-- A parsed request with a host and port zero is answered with status 101 and
the message naming `port`. -/
theorem connect_missing_port (env : Env) (c : Connect) (connectReq : Str)
    (request : connectRequest) (hreq : connectReq ≠ [])
    (hparse : env.unmarshalConnect connectReq = .ok request) (hhost : request.Host ≠ [])
    (hport : request.Port = 0) :
    ConnectHost env c connectReq
      = ⟨c, [], .returned (some ⟨"Parameter 'port' should not be empty".toList, 101⟩) none⟩ := by
  simp [ConnectHost, hreq, hparse, hhost, hport]

/-- A parsed request with host and port and an empty password gets the empty
string and a nil error back, whatever the environment. -/
theorem connect_missing_password (env : Env) (c : Connect) (connectReq : Str)
    (request : connectRequest) (hreq : connectReq ≠ [])
    (hparse : env.unmarshalConnect connectReq = .ok request) (hhost : request.Host ≠ [])
    (hport : request.Port ≠ 0) (hpw : request.Password = []) :
    ConnectHost env c connectReq = ⟨c, [], .returned none none⟩ := by
  simp [ConnectHost, hreq, hparse, hhost, hport, hpw]

/-- C12: a parsed Connect request with host `broker.example.com`, port 8883 and
an empty password gets the empty string and no error back, not a response with
status 101 and the message naming `password`; the requests without host and
without port do get their 101 responses. -/
theorem connect_empty_password_gets_no_response :
    retryEnv.unmarshalConnect "nopassword".toList
      = .ok ⟨"broker.example.com".toList, 8883, []⟩ ∧
    ConnectHost retryEnv freshConnector "nopassword".toList
      = ⟨freshConnector, [], .returned none none⟩ ∧
    ConnectHost retryEnv freshConnector "nohost".toList
      = ⟨freshConnector, [],
          .returned (some ⟨"Parameter 'host' should not be empty".toList, 101⟩) none⟩ ∧
    ConnectHost retryEnv freshConnector "noport".toList
      = ⟨freshConnector, [],
          .returned (some ⟨"Parameter 'port' should not be empty".toList, 101⟩) none⟩ :=
  ⟨rfl, by decide, by decide, by decide⟩

/-! ## Connection manager: which options a session is opened with -/

/-- With no session handle, an accepted request opens the session with the
options built from this request. -/
theorem connect_without_handle_uses_request (env : Env) (c : Connect) (connectReq : Str)
    (request : connectRequest) (res : Str) (hreq : connectReq ≠ [])
    (hparse : env.unmarshalConnect connectReq = .ok request)
    (hhost : request.Host ≠ []) (hport : request.Port ≠ 0) (hpw : request.Password ≠ [])
    (hauth : validateToken env (getUserName env request.Password) request.Password
      = .result 0 res none)
    (hnone : c.client = none) :
    (ConnectHost env c connectReq).calls
      = [.connect (buildOptions env request (getUserName env request.Password))] ∧
    (buildOptions env request (getUserName env request.Password)).broker
      = "ssl://".toList ++ request.Host ++ ":".toList ++ itoa request.Port ∧
    (buildOptions env request (getUserName env request.Password)).password
      = "OPENID~~".toList ++ request.Password ++ "~".toList := by
  refine ⟨?_, rfl, rfl⟩
  simp only [ConnectHost, hreq, hparse, hhost, hport, hpw, hauth, hnone, if_false, NewClient]
  simp only [ne_eq, not_true_eq_false, if_false, Bool.false_eq_true]
  cases env.brokerConnect (buildOptions env request (getUserName env request.Password)) with
  | mk rc err =>
    cases err <;> rfl

/-- With a session handle that reports not connected, an accepted request
reopens the session with the options the handle was created with, not with the
options of this request. -/
theorem connect_with_idle_handle_reuses_options (env : Env) (c : Connect) (connectReq : Str)
    (request : connectRequest) (res : Str) (cl : Client) (hreq : connectReq ≠ [])
    (hparse : env.unmarshalConnect connectReq = .ok request)
    (hhost : request.Host ≠ []) (hport : request.Port ≠ 0) (hpw : request.Password ≠ [])
    (hauth : validateToken env (getUserName env request.Password) request.Password
      = .result 0 res none)
    (hcl : c.client = some cl) (hidle : cl.connected = false) :
    (ConnectHost env c connectReq).calls = [.connect cl.opts] := by
  simp only [ConnectHost, hreq, hparse, hhost, hport, hpw, hauth, hcl, if_false]
  simp only [ne_eq, not_true_eq_false, if_false, hidle, Bool.false_eq_true]
  cases env.brokerConnect cl.opts with
  | mk rc err =>
    cases err <;> rfl

/-- C13: a first Connect (host `old.example.com`, password `expired`) is refused
by the broker and leaves a handle that reports not connected. A second Connect
with host `new.example.com`, port 9906 and password `renewed`, accepted by the
token check, then opens the session with the options of the first call (broker
`ssl://old.example.com:8883`, password `OPENID~~expired~`) and is refused again,
while the same request on a connector without handle connects with its own
values. -/
theorem connect_retry_uses_stale_options :
    ConnectHost retryEnv freshConnector "first".toList
      = ⟨{ freshConnector with
            client := some (Client.mk (ClientOptions.mk "ssl://old.example.com:8883".toList
              "bridgeGo_go_011126120000".toList 20 bridgeGo "OPENID~~expired~".toList
              true 4 false) false) },
          [.connect ⟨"ssl://old.example.com:8883".toList, "bridgeGo_go_011126120000".toList,
            20, bridgeGo, "OPENID~~expired~".toList, true, 4, false⟩],
          .returned (some ⟨"Connection Refused: Not Authorised".toList, 5⟩)
            (some "not Authorized".toList)⟩ ∧
    (ConnectHost retryEnv freshConnector "first".toList).conn.IsConnected = false ∧
    retryEnv.unmarshalConnect "second".toList
      = .ok ⟨"new.example.com".toList, 9906, "renewed".toList⟩ ∧
    validateToken retryEnv (getUserName retryEnv "renewed".toList) "renewed".toList
      = .result 0 "Success".toList none ∧
    (ConnectHost retryEnv (ConnectHost retryEnv freshConnector "first".toList).conn
        "second".toList).calls
      = [.connect ⟨"ssl://old.example.com:8883".toList, "bridgeGo_go_011126120000".toList,
          20, bridgeGo, "OPENID~~expired~".toList, true, 4, false⟩] ∧
    (ConnectHost retryEnv (ConnectHost retryEnv freshConnector "first".toList).conn
        "second".toList).out
      = .returned (some ⟨"Connection Refused: Not Authorised".toList, 5⟩)
          (some "not Authorized".toList) ∧
    ConnectHost retryEnv freshConnector "second".toList
      = ⟨{ freshConnector with
            client := some (Client.mk (ClientOptions.mk "ssl://new.example.com:9906".toList
              "bridgeGo_go_011126120000".toList 20 bridgeGo "OPENID~~renewed~".toList
              true 4 false) true) },
          [.connect ⟨"ssl://new.example.com:9906".toList, "bridgeGo_go_011126120000".toList,
            20, bridgeGo, "OPENID~~renewed~".toList, true, 4, false⟩],
          .returned (some ⟨"Connection Accepted".toList, 0⟩) none⟩ :=
  ⟨by decide, by decide, rfl, by decide, by decide, by decide, by decide⟩

/-! ## Connection manager: disconnect -/

/-- C14: when a session handle exists and reports connected, Disconnect makes
the one call `Disconnect(250)` and returns with no error status 0
"Disconnected Successfully" if the session reports disconnected afterwards and
status 1 "Disconnection Failed" otherwise; in both cases the handle is absent
afterwards (the callbacks are untouched), so IsConnected is false. -/
theorem disconnect_connected_session (env : Env) (c : Connect) (cl : Client)
    (hcl : c.client = some cl) (hconn : cl.connected = true) :
    (DisconnectHost env c).calls = [.disconnect 250] ∧
    (env.connectedAfterDisconnect cl = false →
      (DisconnectHost env c).out
        = .returned (some ⟨0, "Disconnected Successfully".toList⟩) none) ∧
    (env.connectedAfterDisconnect cl = true →
      (DisconnectHost env c).out = .returned (some ⟨1, "Disconnection Failed".toList⟩) none) ∧
    (DisconnectHost env c).conn = { c with client := none } ∧
    (DisconnectHost env c).conn.client = none ∧
    (DisconnectHost env c).conn.IsConnected = false := by
  refine ⟨?_, ?_, ?_, ?_, ?_, ?_⟩
  · simp [DisconnectHost, hcl, hconn]
  · intro h
    simp [DisconnectHost, hcl, hconn, h]
  · intro h
    simp [DisconnectHost, hcl, hconn, h]
  · simp [DisconnectHost, hcl, hconn]
  · simp [DisconnectHost, hcl, hconn]
  · simp [DisconnectHost, hcl, hconn, Connect.IsConnected]

theorem disconnect_connected_session_witness :
    (DisconnectHost sampleEnv liveConnector).calls = [.disconnect 250] ∧
    (sampleEnv.connectedAfterDisconnect ⟨sampleOptions, true⟩ = false →
      (DisconnectHost sampleEnv liveConnector).out
        = .returned (some ⟨0, "Disconnected Successfully".toList⟩) none) ∧
    (sampleEnv.connectedAfterDisconnect ⟨sampleOptions, true⟩ = true →
      (DisconnectHost sampleEnv liveConnector).out
        = .returned (some ⟨1, "Disconnection Failed".toList⟩) none) ∧
    (DisconnectHost sampleEnv liveConnector).conn = { liveConnector with client := none } ∧
    (DisconnectHost sampleEnv liveConnector).conn.client = none ∧
    (DisconnectHost sampleEnv liveConnector).conn.IsConnected = false :=
  disconnect_connected_session sampleEnv liveConnector ⟨sampleOptions, true⟩ rfl rfl

/-- C15: on a connector with no session handle, or whose handle reports not
connected, Disconnect returns status 106 "Client not connected" with no error,
makes no call on the MQTT client and returns the connector with every field
(handle and the twelve callbacks) as it was. -/
theorem disconnect_not_connected (env : Env) (c : Connect)
    (h : c.client = none ∨ ∃ cl, c.client = some cl ∧ cl.connected = false) :
    DisconnectHost env c
      = ⟨c, [], .returned (some ⟨106, "Client not connected".toList⟩) none⟩ := by
  rcases h with h | ⟨cl, h, hc⟩
  · simp [DisconnectHost, h]
  · simp [DisconnectHost, h, hc]

theorem disconnect_not_connected_witness :
    DisconnectHost sampleEnv freshConnector
      = ⟨freshConnector, [], .returned (some ⟨106, "Client not connected".toList⟩) none⟩ ∧
    DisconnectHost sampleEnv droppedConnector
      = ⟨droppedConnector, [], .returned (some ⟨106, "Client not connected".toList⟩) none⟩ :=
  ⟨disconnect_not_connected sampleEnv freshConnector (Or.inl rfl),
    disconnect_not_connected sampleEnv droppedConnector
      (Or.inr ⟨⟨sampleOptions, false⟩, rfl, rfl⟩)⟩

/-! ## Connection-lost handler -/

/-- With a disconnect callback registered, the handler clears the session handle
and then calls the callback once with the error; the connector the callback
sees has no handle. -/
theorem onDisconnect_with_callback (inst : Connect) (err : GoError) (f : Callback)
    (hreg : inst.OnDisconnect = some f) :
    onDisconnect inst err
      = ({ inst with client := none }, [⟨f, err, { inst with client := none }⟩]) ∧
    (onDisconnect inst err).1.client = none ∧
    (onDisconnect inst err).1.IsConnected = false := by
  simp [onDisconnect, hreg, Connect.IsConnected]

/-- With no disconnect callback registered, the handler does nothing at all. -/
theorem onDisconnect_without_callback (inst : Connect) (err : GoError)
    (hreg : inst.OnDisconnect = none) : onDisconnect inst err = (inst, []) := by
  simp [onDisconnect, hreg]

/-- C16: on a connector with no disconnect callback whose session was lost (the
handle exists and reports not connected), handling the connection-lost
notification leaves the session handle in place, and a later accepted Connect
reopens that handle with its old options instead of creating a fresh session.
With a callback registered the handle is cleared before the single call. -/
theorem connection_lost_without_callback_keeps_handle :
    droppedConnector.OnDisconnect = none ∧
    onDisconnect droppedConnector "EOF".toList = (droppedConnector, []) ∧
    (onDisconnect droppedConnector "EOF".toList).1.client = some ⟨sampleOptions, false⟩ ∧
    (ConnectHost retryEnv (onDisconnect droppedConnector "EOF".toList).1 "second".toList).calls
      = [.connect sampleOptions] ∧
    onDisconnect watchedConnector "EOF".toList
      = ({ watchedConnector with client := none },
          [⟨9, "EOF".toList, { watchedConnector with client := none }⟩]) := by
  decide

/-! ## Identity resolver -/

/-- A successful resolution: three segments, a decodable middle segment, a JSON
object, and a string-valued `preferred_username`, which is returned. -/
theorem getUserName_of_claim (env : Env) (tokenString p0 p1 p2 d claim : Str)
    (m : List (Str × JVal)) (hsplit : stringsSplitDot tokenString = [p0, p1, p2])
    (hdec : env.base64Decode (restorePadding p1) = .ok d) (hmap : env.unmarshalMap d = .ok m)
    (hclaim : m.lookup "preferred_username".toList = some (.str claim)) :
    getUserName env tokenString = claim := by
  unfold restorePadding at hdec
  simp only [getUserName, hsplit, List.length_cons, List.length_nil, ne_eq,
    not_true_eq_false, if_false, List.getElem?_cons_succ, List.getElem?_cons_zero, hdec, hmap,
    hclaim]

/-- C17: the identity resolver is a total function into strings. It returns the
fallback identity `bridgeGo` for every token that does not split on `.` into
exactly three segments, and for every three-segment token whose middle segment,
padded with `=` to a multiple of four bytes, is rejected by the base64url
decoder, or decodes to bytes that are not a JSON object, or decodes to an object
without a string-valued `preferred_username`. -/
theorem getUserName_fallback (env : Env) (tokenString : Str)
    (h : (stringsSplitDot tokenString).length ≠ 3 ∨
      ∃ p0 p1 p2, stringsSplitDot tokenString = [p0, p1, p2] ∧
        ((∃ e, env.base64Decode (restorePadding p1) = .error e) ∨
         (∃ d e, env.base64Decode (restorePadding p1) = .ok d ∧
            env.unmarshalMap d = .error e) ∨
         (∃ d m, env.base64Decode (restorePadding p1) = .ok d ∧ env.unmarshalMap d = .ok m ∧
            ∀ claim, m.lookup "preferred_username".toList ≠ some (.str claim)))) :
    getUserName env tokenString = bridgeGo := by
  unfold restorePadding at h
  rcases h with h | ⟨p0, p1, p2, hsplit, h | ⟨d, e, hd, hm⟩ | ⟨d, m, hd, hm, hclaim⟩⟩
  · simp [getUserName, h]
  · obtain ⟨e, he⟩ := h
    simp [getUserName, hsplit, he]
  · simp [getUserName, hsplit, hd, hm]
  · simp only [getUserName, hsplit, List.length_cons, List.length_nil, ne_eq,
      not_true_eq_false, if_false, List.getElem?_cons_succ, List.getElem?_cons_zero, hd, hm]

theorem getUserName_fallback_witness :
    getUserName claimsEnv "onlyonesegment".toList = bridgeGo ∧
    getUserName claimsEnv "a.b.c.d".toList = bridgeGo ∧
    getUserName claimsEnv "h.!!.s".toList = bridgeGo ∧
    getUserName claimsEnv "h.bm90anNvbg.s".toList = bridgeGo ∧
    getUserName claimsEnv "h.e30.s".toList = bridgeGo ∧
    getUserName claimsEnv "h.eyJwcmVmZXJyZWRfdXNlcm5hbWUiOjV9.s".toList = bridgeGo :=
  ⟨getUserName_fallback claimsEnv "onlyonesegment".toList (Or.inl (by decide)),
    getUserName_fallback claimsEnv "a.b.c.d".toList (Or.inl (by decide)),
    getUserName_fallback claimsEnv "h.!!.s".toList
      (Or.inr ⟨"h".toList, "!!".toList, "s".toList, by decide,
        Or.inl ⟨"illegal base64 data".toList, rfl⟩⟩),
    getUserName_fallback claimsEnv "h.bm90anNvbg.s".toList
      (Or.inr ⟨"h".toList, "bm90anNvbg".toList, "s".toList, by decide,
        Or.inr (Or.inl ⟨"notjson".toList, "invalid character".toList, rfl, rfl⟩)⟩),
    getUserName_fallback claimsEnv "h.e30.s".toList
      (Or.inr ⟨"h".toList, "e30".toList, "s".toList, by decide,
        Or.inr (Or.inr ⟨"empty object".toList, [], rfl, rfl, by
          intro claim h
          cases h⟩)⟩),
    getUserName_fallback claimsEnv "h.eyJwcmVmZXJyZWRfdXNlcm5hbWUiOjV9.s".toList
      (Or.inr ⟨"h".toList, "eyJwcmVmZXJyZWRfdXNlcm5hbWUiOjV9".toList, "s".toList, by decide,
        Or.inr (Or.inr ⟨"numeric claim".toList, [("preferred_username".toList, .other)], rfl,
          rfl, by
          intro claim h
          simp [List.lookup] at h⟩)⟩)⟩

/-- The sample token payload with a string claim resolves to that claim. -/
theorem getUserName_sample :
    getUserName claimsEnv "h.eyJwcmVmZXJyZWRfdXNlcm5hbWUiOiI5MzA4MDA0OCJ9.s".toList
      = "93080048".toList := by
  decide

/-! ## Dispatch router: messages nobody owns -/

/-- The first piece never holds `v1/`: it ends before the first occurrence. -/
theorem splitGo_first_piece_clean (s cur : Str) :
    ∃ pre rest, splitGo 0 s cur = (cur.reverse ++ pre) :: rest ∧ ¬ v1Sep <:+: pre ∧ pre <+: s := by
  induction s generalizing cur with
  | nil =>
    refine ⟨[], [], by simp [splitGo], ?_, List.prefix_refl _⟩
    intro h
    exact absurd (List.eq_nil_of_infix_nil h) (by decide)
  | cons a s ih =>
    cases hp : v1Sep.isPrefixOf (a :: s) with
    | true =>
      refine ⟨[], splitGo 2 s [], by simp [splitGo, hp], ?_, List.nil_prefix⟩
      intro h
      exact absurd (List.eq_nil_of_infix_nil h) (by decide)
    | false =>
      obtain ⟨pre, rest, he, hclean, hpre⟩ := ih (a :: cur)
      refine ⟨a :: pre, rest, by simp [splitGo, hp, he], ?_, ?_⟩
      · intro hinf
        rcases List.infix_cons_iff.mp hinf with h1 | h2
        · have h3 : v1Sep <+: a :: s :=
            h1.trans ((List.prefix_cons_inj a).mpr hpre)
          rw [← List.isPrefixOf_iff_prefix, hp] at h3
          cases h3
        · exact hclean h2
      · exact (List.prefix_cons_inj a).mpr hpre

/-- The router runs the `case` of the category its first piece names. -/
theorem messagehandler_of_split (inst : Connect) (topic : Str) (b : Payload) (first : Str)
    (rest : List Str) (c : FeedCategory) (hsplit : reSplit topic = first :: rest)
    (hkey : first ++ "v1/".toList = c.feedType) :
    messagehandler inst topic b = callHandler (inst.handler c) c b (first :: rest) := by
  unfold messagehandler
  simp only [hsplit, List.getElem?_cons_zero, hkey]
  cases c <;> simp +decide [FeedCategory.feedType, Connect.handler]

/-- A topic that is a category prefix cut before its `v1/` makes the router read
`parts[1]` of a one-element slice when that category has a callback. -/
theorem dispatch_panics_on_stem (inst : Connect) (c : FeedCategory) (stem : Str) (b : Payload)
    (f : Callback) (hreg : inst.handler c = some f) (hstem : stem ++ "v1/".toList = c.feedType) :
    messagehandler inst stem b = .panicked := by
  have hno : ¬ v1Sep <:+: stem := by
    obtain ⟨stem', hstem', hsplit'⟩ := reSplit_feedType c []
    obtain ⟨pre, rest, he, hclean, _⟩ := splitGo_first_piece_clean (c.feedType ++ []) []
    have he' : reSplit (c.feedType ++ []) = pre :: rest := by simpa [reSplit] using he
    rw [hsplit'] at he'
    have h1 : stem' = pre := (List.cons.inj he').1
    have h2 : stem = stem' := List.append_cancel_right (hstem.trans hstem'.symm)
    rw [h2, h1]
    exact hclean
  rw [messagehandler_of_split inst stem b stem [] c ( reSplit_of_not_infix stem hno) hstem, hreg]
  rfl

/-- Whatever error `json.Unmarshal` reports, a request that leaves the list nil
is answered with status 102 and a nil error. -/
theorem subscribe_decode_error_gives_102 (env : Env) (c : Connect) (cat : FeedCategory)
    (req : Str) (cl : Client) (e : GoError) (hcl : c.client = some cl)
    (hconn : cl.connected = true) (hreq : req ≠ [])
    (hdec : env.unmarshalSubscribe req = (none, some e)) :
    Subscribe env c cat req = ⟨c, [], .returned (some ⟨102,
      "TopicList cannot be nil and no. of topics should be less than 1024".toList, []⟩) none⟩ := by
  have hd := clientDown_of_connected c cl hcl hconn
  rw [Subscribe_eq]
  unfold subscribe
  simp only [hd, hreq, hdec, if_false, Bool.false_eq_true]

theorem unsubscribe_decode_error_gives_102 (env : Env) (c : Connect) (cat : FeedCategory)
    (req : Str) (cl : Client) (e : GoError) (hcl : c.client = some cl)
    (hconn : cl.connected = true)
    (hdec : env.unmarshalUnsubscribe req = (none, some e)) :
    Unsubscribe env c cat req = ⟨c, [], .returned (some ⟨102,
      "TopicList cannot be nil and no. of topics should be less than 1024".toList⟩) none⟩ := by
  have hd := clientDown_of_connected c cl hcl hconn
  rw [Unsubscribe_eq]
  unfold unsubscribe
  simp only [hd, hdec, if_false, Bool.false_eq_true]

/-- C19: on a connected session, Subscribe and Unsubscribe with the body
`not json`, which `json.Unmarshal` rejects with an error, return the
status-coded response 102 with a nil error instead of the decode error. -/
theorem unparseable_body_gets_status_102 :
    sampleEnv.unmarshalSubscribe "not json".toList = (none, some "invalid character".toList) ∧
    Subscribe sampleEnv liveConnector .marketWatch "not json".toList
      = ⟨liveConnector, [], .returned (some ⟨102,
          "TopicList cannot be nil and no. of topics should be less than 1024".toList, []⟩)
            none⟩ ∧
    sampleEnv.unmarshalUnsubscribe "not json".toList
      = (none, some "invalid character".toList) ∧
    Unsubscribe sampleEnv liveConnector .marketWatch "not json".toList
      = ⟨liveConnector, [], .returned (some ⟨102,
          "TopicList cannot be nil and no. of topics should be less than 1024".toList⟩)
            none⟩ :=
  ⟨rfl, by decide, rfl, by decide⟩

/-! ## Session authenticator -/

/-- With a `result` object holding a string `status`, the verdict is accept
`(0, "Success")` exactly when the status is `Success`. -/
theorem validateToken_accept_iff (env : Env) (userName token body status : Str)
    (responseMap result : List (Str × JVal)) (hpost : env.httpPost userName token = .ok body)
    (hmap : env.unmarshalMap body = .ok responseMap)
    (hres : responseMap.lookup "result".toList = some (.obj result))
    (hst : result.lookup "status".toList = some (.str status)) :
    validateToken env userName token = .result 0 "Success".toList none
      ↔ status = "Success".toList := by
  simp only [validateToken, hpost, hmap, hres, hst]
  by_cases h : status = "Success".toList
  · simp [h]
  · simp only [ne_eq, h, not_false_eq_true, if_true, iff_false]
    cases hl : result.lookup "message".toList with
    | none => simp
    | some v => cases v <;> simp

/-- With a `result` object holding a string `status` other than `Success` and a
string `message`, the verdict is reject `-1` carrying that message. -/
theorem validateToken_reject (env : Env) (userName token body status message : Str)
    (responseMap result : List (Str × JVal)) (hpost : env.httpPost userName token = .ok body)
    (hmap : env.unmarshalMap body = .ok responseMap)
    (hres : responseMap.lookup "result".toList = some (.obj result))
    (hst : result.lookup "status".toList = some (.str status))
    (hne : status ≠ "Success".toList)
    (hmsg : result.lookup "message".toList = some (.str message)) :
    validateToken env userName token = .result (-1) message none := by
  simp only [validateToken, hpost, hmap, hres, hst, hmsg, ne_eq, hne, not_false_eq_true,
    if_true]

/-- A response object without a `result` object makes the type assertion panic. -/
theorem validateToken_panics_without_result (env : Env) (userName token body : Str)
    (responseMap : List (Str × JVal)) (hpost : env.httpPost userName token = .ok body)
    (hmap : env.unmarshalMap body = .ok responseMap)
    (hres : ∀ result, responseMap.lookup "result".toList ≠ some (.obj result)) :
    validateToken env userName token = .panicked := by
  simp only [validateToken, hpost, hmap]

/-- C20: a response body that parses as the empty JSON object (no `result`)
makes the authenticator panic instead of returning an error, and so do a
`result` that is a string, a `result` without `status`, and a rejecting `result`
without `message`; with string `status` and `message` it accepts exactly the
status `Success` and rejects with the message otherwise. -/
theorem malformed_verdict_panics :
    verifierEnv.httpPost bridgeGo "noresult".toList = .ok "noresult".toList ∧
    validateToken verifierEnv bridgeGo "noresult".toList = .panicked ∧
    validateToken verifierEnv bridgeGo "textresult".toList = .panicked ∧
    validateToken verifierEnv bridgeGo "nostatus".toList = .panicked ∧
    validateToken verifierEnv bridgeGo "nomessage".toList = .panicked ∧
    validateToken verifierEnv bridgeGo "accept".toList = .result 0 "Success".toList none ∧
    validateToken verifierEnv bridgeGo "reject".toList
      = .result (-1) "Token expired".toList none :=
  ⟨rfl, by decide, by decide, by decide, by decide, by decide, by decide⟩

/-! ## Subscription manager: acknowledgment codes -/

/-- When the acknowledgment loop ends normally it has appended one entry per
acknowledgment, in iteration order, each built from the code and the second
piece of the key. -/
theorem ackLoop_eq_some (acks : ByteMap) (results rs : List subscriptionResult)
    (h : ackLoop acks results = some rs) :
    ∃ entries, rs = results ++ entries ∧
      List.Forall₂ (fun p r => ∃ bare, (reSplit p.1)[1]? = some bare ∧ r = ackEntry p.2 bare)
        acks entries := by
  induction acks generalizing results with
  | nil =>
    simp only [ackLoop, Option.some.injEq] at h
    exact ⟨[], by simp [h], List.Forall₂.nil⟩
  | cons p acks ih =>
    obtain ⟨key, value⟩ := p
    cases hb : (reSplit key)[1]? with
    | none => simp [ackLoop, hb] at h
    | some bare =>
      simp only [ackLoop, hb] at h
      obtain ⟨entries, he, hrel⟩ := ih _ h
      exact ⟨ackEntry value bare :: entries, by simp [he],
        List.Forall₂.cons ⟨bare, hb, rfl⟩ hrel⟩

/-- The code table on the four SUBACK return codes, and the integer reported. -/
theorem ackEntry_codes (bare : Str) :
    ackEntry 0 bare = ⟨0, "Success".toList, bare⟩ ∧
    ackEntry 1 bare = ⟨1, "Success".toList, bare⟩ ∧
    ackEntry 2 bare = ⟨2, "Success".toList, bare⟩ ∧
    ackEntry 0x80 bare = ⟨128, "Failure".toList, bare⟩ := by
  refine ⟨?_, ?_, ?_, ?_⟩ <;> simp [ackEntry, subackReturnCodes]

/-- A Subscribe call that returns a response with status 0 went through the
broker round trip: the batched subscribe returned an acknowledgment map and the
response is the local entries followed by the entries of the loop. -/
theorem subscribe_status_zero (env : Env) (c : Connect) (req feedType : Str)
    (body : subscribeResponse) (err : Option GoError)
    (hout : (subscribe env c req feedType).out = .returned (some body) err)
    (hst : body.Status = 0) :
    ∃ L acks rs, (env.unmarshalSubscribe req).1 = some L ∧
      env.brokerSubscribe (subscribeLoop feedType L [] []).1 = .ok acks ∧
      ackLoop acks (subscribeLoop feedType L [] []).2 = some rs ∧
      body = ⟨0, "Success".toList, rs⟩ ∧ err = none ∧
      (subscribe env c req feedType).calls
        = [.subscribeMultiple (subscribeLoop feedType L [] []).1] := by
  by_cases hd : clientDown c = true
  · unfold subscribe at hout
    simp only [hd, if_true] at hout
    cases hout
    cases hst
  by_cases hreq : req = []
  · unfold subscribe at hout
    simp only [hd, Bool.false_eq_true, if_false, hreq, if_true] at hout
    cases hout
    cases hst
  cases hdec : (env.unmarshalSubscribe req).1 with
  | none =>
    unfold subscribe at hout
    simp only [hd, Bool.false_eq_true, if_false, hreq, hdec] at hout
    cases hout
    cases hst
  | some L =>
    by_cases hlen : L.length > 1024
    · unfold subscribe at hout
      simp only [hd, Bool.false_eq_true, if_false, hreq, hdec, hlen, if_true] at hout
      cases hout
      cases hst
    · obtain ⟨cl, hcl, hconn⟩ : ∃ cl, c.client = some cl ∧ cl.connected = true := by
        unfold clientDown at hd
        cases hc : c.client with
        | none => simp [hc] at hd
        | some cl =>
          refine ⟨cl, rfl, ?_⟩
          simpa [hc] using hd
      rw [subscribe_connected env c req feedType cl L hcl hconn hreq hdec (not_lt.mp hlen)]
        at hout ⊢
      by_cases hF : (subscribeLoop feedType L [] []).1.length ≠ 0
      · rw [if_pos hF] at hout ⊢
        cases hb : env.brokerSubscribe (subscribeLoop feedType L [] []).1 with
        | error e =>
          rw [hb] at hout
          cases hout
          cases hst
        | ok acks =>
          cases ha : ackLoop acks (subscribeLoop feedType L [] []).2 with
          | none =>
            simp only [hb, ha] at hout
            cases hout
          | some rs =>
            simp only [hb, ha] at hout ⊢
            cases hout
            exact ⟨L, acks, rs, rfl, hb, ha, rfl, rfl, rfl⟩
      · rw [if_neg hF] at hout
        cases hout
        cases hst

/-- On a connected session with at least one valid topic, a batched subscribe
that returns an acknowledgment map keyed by submitted topics gives a response
with status 0 and no error. -/
theorem subscribe_succeeds_of_acks (env : Env) (c : Connect) (cat : FeedCategory) (req : Str)
    (cl : Client) (L : List Str) (acks : ByteMap)
    (hcl : c.client = some cl) (hconn : cl.connected = true) (hreq : req ≠ [])
    (hdec : (env.unmarshalSubscribe req).1 = some L) (hlen : L.length ≤ 1024)
    (hvalid : ∃ t ∈ L, matchTopic t = true)
    (hb : env.brokerSubscribe (subscribeLoop cat.feedType L [] []).1 = .ok acks)
    (hkeys : ∀ k ∈ acks.keys, k ∈ (subscribeLoop cat.feedType L [] []).1.keys) :
    ∃ body, (Subscribe env c cat req).out = .returned (some body) none ∧ body.Status = 0 := by
  have hF : (subscribeLoop cat.feedType L [] []).1.length ≠ 0 :=
    (subscribeLoop_filter_length cat.feedType L []).mpr (List.any_eq_true.mpr hvalid)
  obtain ⟨entries, he, _⟩ := ackLoop_of_split acks (subscribeLoop cat.feedType L [] []).2
    (fun k hk => filter_key_splits cat L [] k (hkeys k hk))
  rw [Subscribe_eq, subscribe_connected env c req cat.feedType cl L hcl hconn hreq hdec hlen,
    if_pos hF, hb]
  dsimp only
  rw [he]
  exact ⟨_, rfl, rfl⟩

/-- C21: when Subscribe returns a response with status 0, its message is
"Success" and there is no error; the batched subscribe was made once and
returned an acknowledgment map, and the per-topic results are the local
"Invalid Topic" entries followed by one entry per acknowledgment, in the order
the map is visited. The entry of an acknowledgment (wire topic, code a) carries
the second piece of the wire topic, the result code a as an integer (a is a
byte; 0x80 is reported as 128) and the text of the code table: "Success" for
0, 1 and 2, "Failure" for 0x80. -/
theorem subscribe_success_reports_ack_codes (env : Env) (c : Connect) (cat : FeedCategory)
    (req : Str) (body : subscribeResponse) (err : Option GoError)
    (hout : (Subscribe env c cat req).out = .returned (some body) err)
    (hst : body.Status = 0) :
    body.Message = "Success".toList ∧ err = none ∧
    ∃ L F acks entries,
      (env.unmarshalSubscribe req).1 = some L ∧
      (Subscribe env c cat req).calls = [.subscribeMultiple F] ∧
      env.brokerSubscribe F = .ok acks ∧
      body.SubscriptionResult
        = (L.filter (fun t => !matchTopic t)).map invalidTopic ++ entries ∧
      List.Forall₂ (fun p r =>
          (reSplit p.1)[1]? = some r.Topic ∧
          r.ResultCode = ((p.2 % 256 : Nat) : Int) ∧
          r.Result = subackReturnCodes (p.2 % 256)) acks entries ∧
      (∀ p ∈ acks, ∃ r ∈ entries,
          (reSplit p.1)[1]? = some r.Topic ∧
          (p.2 < 256 → r.ResultCode = (p.2 : Int)) ∧
          (p.2 = 0 ∨ p.2 = 1 ∨ p.2 = 2 → r.Result = "Success".toList) ∧
          (p.2 = 0x80 → r.ResultCode = 128 ∧ r.Result = "Failure".toList)) := by
  rw [Subscribe_eq] at hout ⊢
  obtain ⟨L, acks, rs, hdec, hb, ha, hbody, herr, hcalls⟩ :=
    subscribe_status_zero env c req cat.feedType body err hout hst
  obtain ⟨entries, hrs, hrel⟩ := ackLoop_eq_some acks _ rs ha
  have hrel' : List.Forall₂ (fun (p : Str × Nat) (r : subscriptionResult) =>
      (reSplit p.1)[1]? = some r.Topic ∧
      r.ResultCode = ((p.2 % 256 : Nat) : Int) ∧
      r.Result = subackReturnCodes (p.2 % 256)) acks entries := by
    refine hrel.imp ?_
    rintro p r ⟨bare, hbare, rfl⟩
    exact ⟨hbare, rfl, rfl⟩
  subst hbody
  refine ⟨rfl, herr, L, (subscribeLoop cat.feedType L [] []).1, acks, entries, hdec, hcalls, hb,
    ?_, hrel', ?_⟩
  · show rs = _
    rw [hrs, subscribeLoop_results, List.nil_append]
  · intro p hp
    obtain ⟨r, hr, htopic, hcode, htext⟩ := exists_right_of_forall₂ hrel' p hp
    refine ⟨r, hr, htopic, ?_, ?_, ?_⟩
    · intro hlt
      rw [hcode, Nat.mod_eq_of_lt hlt]
    · rintro (h | h | h) <;> rw [htext, h] <;> decide
    · intro h
      rw [hcode, htext, h]
      exact ⟨by decide, by decide⟩

theorem subscribe_success_reports_ack_codes_witness :
    (⟨0, "Success".toList, [⟨128, "Failure".toList, "nseeq/2885".toList⟩]⟩
      : subscribeResponse).Message = "Success".toList ∧
    (none : Option GoError) = none ∧
    ∃ L F acks entries,
      (refusingEnv.unmarshalSubscribe "one".toList).1 = some L ∧
      (Subscribe refusingEnv liveConnector .marketWatch "one".toList).calls
        = [.subscribeMultiple F] ∧
      refusingEnv.brokerSubscribe F = .ok acks ∧
      (⟨0, "Success".toList, [⟨128, "Failure".toList, "nseeq/2885".toList⟩]⟩
        : subscribeResponse).SubscriptionResult
        = (L.filter (fun t => !matchTopic t)).map invalidTopic ++ entries ∧
      List.Forall₂ (fun p r =>
          (reSplit p.1)[1]? = some r.Topic ∧
          r.ResultCode = ((p.2 % 256 : Nat) : Int) ∧
          r.Result = subackReturnCodes (p.2 % 256)) acks entries ∧
      (∀ p ∈ acks, ∃ r ∈ entries,
          (reSplit p.1)[1]? = some r.Topic ∧
          (p.2 < 256 → r.ResultCode = (p.2 : Int)) ∧
          (p.2 = 0 ∨ p.2 = 1 ∨ p.2 = 2 → r.Result = "Success".toList) ∧
          (p.2 = 0x80 → r.ResultCode = 128 ∧ r.Result = "Failure".toList)) :=
  subscribe_success_reports_ack_codes refusingEnv liveConnector .marketWatch "one".toList
    ⟨0, "Success".toList, [⟨128, "Failure".toList, "nseeq/2885".toList⟩]⟩ none
    (by decide) rfl

/-- The two sample brokers: code 0 is reported as (0, "Success"), code 0x80 as
(128, "Failure"), both under status 0 "Success". -/
theorem subscribe_ack_code_samples :
    (Subscribe sampleEnv liveConnector .marketWatch "one".toList).out
      = .returned (some ⟨0, "Success".toList,
          [⟨0, "Success".toList, "nseeq/2885".toList⟩]⟩) none ∧
    (Subscribe refusingEnv liveConnector .marketWatch "one".toList).out
      = .returned (some ⟨0, "Success".toList,
          [⟨128, "Failure".toList, "nseeq/2885".toList⟩]⟩) none ∧
    (Subscribe refusingEnv liveConnector .marketWatch "mixed".toList).out
      = .returned (some ⟨0, "Success".toList,
          [⟨104, "Invalid Topic".toList, "b c".toList⟩,
           ⟨128, "Failure".toList, "a".toList⟩]⟩) none := by
  decide

/-! ## Dispatch router: the topics it is registered for -/

end Connector
